import Mathlib

/-!
# Cherenkov simulator: a verification development

A shallow embedding of the geometry and string utilities (`Utility.cpp`), of
the shower-detector-plane fit (`reconstruction.cpp`), of the optics trace and
the viewing loops (`shower_simulator.cpp`), of the photon-count cube
(`data_containers.h`), of the ray-tracing prototype
(`RayTracing/TAnalysis.cpp`, `RayTracing/TTelescope.cpp`,
`RayTracing/Main.cpp`), and of the frame changes
(`CherenkovSimulator/TCoordinates.cpp`).

Conventions of the embedding:

* a C++ `double` is a real number, an `int` is an integer, and a
  `std::string` is the list of its characters; the step counts of the
  viewing loops, which are converted from a quotient of arbitrary size, are
  kept in the range of the 32-bit `int` by `castToInt32` and `wrapInt32`;
* the ROOT value classes `TVector3` and `TRotation` are structures holding
  their coordinates, with the ROOT member functions the sources call
  transcribed from the ROOT implementation;
* a `TRandom3*` argument becomes explicit state passing: a function that
  draws from the generator returns the advanced generator next to its value.
-/

set_option autoImplicit false

noncomputable section

namespace cherenkov_simulator

/-! ## ROOT value classes -/

/-- ROOT three-vector: the coordinates `fX`, `fY`, `fZ`. -/
@[ext]
structure TVector3 where
  x : ℝ
  y : ℝ
  z : ℝ

namespace TVector3

/-- Sum of two vectors, `operator+`. -/
def add (a b : TVector3) : TVector3 := ⟨a.x + b.x, a.y + b.y, a.z + b.z⟩

/-- Difference of two vectors, `operator-`. -/
def sub (a b : TVector3) : TVector3 := ⟨a.x - b.x, a.y - b.y, a.z - b.z⟩

/-- Scalar product, `TVector3::Dot`. -/
def Dot (a b : TVector3) : ℝ := a.x * b.x + a.y * b.y + a.z * b.z

/-- Vector product, `TVector3::Cross`. -/
def Cross (a p : TVector3) : TVector3 :=
  ⟨a.y * p.z - p.y * a.z, a.z * p.x - p.z * a.x, a.x * p.y - p.x * a.y⟩

/-- Squared length, `TVector3::Mag2`. -/
def Mag2 (a : TVector3) : ℝ := a.x * a.x + a.y * a.y + a.z * a.z

/-- Length, `TVector3::Mag`. -/
def Mag (a : TVector3) : ℝ := Real.sqrt a.Mag2

/-- The vector scaled to length one, `TVector3::Unit`: the scale factor is
`1/sqrt(Mag2)` when `Mag2 > 0` and `1` otherwise, so the zero vector is
returned as it is. -/
def Unit (a : TVector3) : TVector3 :=
  let tot2 := a.Mag2
  let tot := if tot2 > 0 then 1 / Real.sqrt tot2 else 1
  ⟨a.x * tot, a.y * tot, a.z * tot⟩

/-- Coordinate access, `operator[]`, for the indices 0, 1, 2. -/
def get (a : TVector3) (i : Fin 3) : ℝ :=
  match i with
  | 0 => a.x
  | 1 => a.y
  | 2 => a.z

end TVector3

/-- ROOT rotation: the nine entries `fxx` .. `fzz` of a 3x3 matrix. -/
@[ext]
structure TRotation where
  xx : ℝ
  xy : ℝ
  xz : ℝ
  yx : ℝ
  yy : ℝ
  yz : ℝ
  zx : ℝ
  zy : ℝ
  zz : ℝ

namespace TRotation

/-- The default-constructed rotation, the identity matrix. -/
def identity : TRotation := ⟨1, 0, 0, 0, 1, 0, 0, 0, 1⟩

/-- Application to a vector, `TRotation::operator*(const TVector3&)`. -/
def apply (r : TRotation) (p : TVector3) : TVector3 :=
  ⟨r.xx * p.x + r.xy * p.y + r.xz * p.z,
   r.yx * p.x + r.yy * p.y + r.yz * p.z,
   r.zx * p.x + r.zy * p.y + r.zz * p.z⟩

/-- Matrix product, `TRotation::operator*(const TRotation&)`. -/
def mul (a b : TRotation) : TRotation :=
  ⟨a.xx * b.xx + a.xy * b.yx + a.xz * b.zx,
   a.xx * b.xy + a.xy * b.yy + a.xz * b.zy,
   a.xx * b.xz + a.xy * b.yz + a.xz * b.zz,
   a.yx * b.xx + a.yy * b.yx + a.yz * b.zx,
   a.yx * b.xy + a.yy * b.yy + a.yz * b.zy,
   a.yx * b.xz + a.yy * b.yz + a.yz * b.zz,
   a.zx * b.xx + a.zy * b.yx + a.zz * b.zx,
   a.zx * b.xy + a.zy * b.yy + a.zz * b.zy,
   a.zx * b.xz + a.zy * b.yz + a.zz * b.zz⟩

/-- Left composition, `TRotation::Transform(m)`: the receiver becomes `m * this`. -/
def Transform (r m : TRotation) : TRotation := mul m r

/-- Rotation about the x axis, `TRotation::RotateX(a)`: the second and third
rows are replaced by their images under the plane rotation by `a`. -/
def RotateX (r : TRotation) (a : ℝ) : TRotation :=
  let c := Real.cos a
  let s := Real.sin a
  { r with
    yx := c * r.yx - s * r.zx
    yy := c * r.yy - s * r.zy
    yz := c * r.yz - s * r.zz
    zx := s * r.yx + c * r.zx
    zy := s * r.yy + c * r.zy
    zz := s * r.yz + c * r.zz }

/-- Rotation by the angle `a` about `axis`, `TRotation::Rotate(a, axis)`:
nothing is done for `a = 0` or for an axis of length zero; otherwise the
receiver is transformed by the Rodrigues matrix of the normalised axis. -/
def Rotate (r : TRotation) (a : ℝ) (axis : TVector3) : TRotation :=
  if a ≠ 0 then
    let ll := axis.Mag
    if ll = 0 then r
    else
      let sa := Real.sin a
      let ca := Real.cos a
      let dx := axis.x / ll
      let dy := axis.y / ll
      let dz := axis.z / ll
      let m : TRotation :=
        ⟨ca + (1 - ca) * dx * dx, (1 - ca) * dx * dy - sa * dz, (1 - ca) * dx * dz + sa * dy,
         (1 - ca) * dy * dx + sa * dz, ca + (1 - ca) * dy * dy, (1 - ca) * dy * dz - sa * dx,
         (1 - ca) * dz * dx - sa * dy, (1 - ca) * dz * dy + sa * dx, ca + (1 - ca) * dz * dz⟩
      r.Transform m
  else r

/-- The matrix is orthogonal: its columns are orthonormal (`Rᵀ R = 1`). -/
def IsOrthogonal (r : TRotation) : Prop :=
  r.xx * r.xx + r.yx * r.yx + r.zx * r.zx = 1 ∧
  r.xy * r.xy + r.yy * r.yy + r.zy * r.zy = 1 ∧
  r.xz * r.xz + r.yz * r.yz + r.zz * r.zz = 1 ∧
  r.xx * r.xy + r.yx * r.yy + r.zx * r.zy = 0 ∧
  r.xx * r.xz + r.yx * r.yz + r.zx * r.zz = 0 ∧
  r.xy * r.xz + r.yy * r.yz + r.zy * r.zz = 0

/-- Determinant of the matrix. -/
def det (r : TRotation) : ℝ :=
  r.xx * (r.yy * r.zz - r.yz * r.zy) - r.xy * (r.yx * r.zz - r.yz * r.zx)
    + r.xz * (r.yx * r.zy - r.yy * r.zx)

/-- A proper rotation: orthogonal with determinant one. -/
def IsRotation (r : TRotation) : Prop := r.IsOrthogonal ∧ r.det = 1

end TRotation

/-- Rotation of a vector in place, `TVector3::Rotate(angle, axis)`: a fresh
rotation is turned by `angle` about `axis` and applied to the vector. -/
def TVector3.Rotate (v : TVector3) (angle : ℝ) (axis : TVector3) : TVector3 :=
  (TRotation.identity.Rotate angle axis).apply v

/-- State of a `TRandom3` generator: the sequence of values `Rndm()` is going
to return and the number of values already drawn. -/
structure TRandom3 where
  stream : ℕ → ℝ
  pos : ℕ

namespace TRandom3

/-- One draw, `TRandom3::Rndm()`: the next value and the advanced generator. -/
def Rndm (g : TRandom3) : ℝ × TRandom3 := (g.stream g.pos, { g with pos := g.pos + 1 })

/-- Scaled draw, `TRandom::Uniform(x1)`, which is `x1 * Rndm()`. -/
def Uniform (g : TRandom3) (x1 : ℝ) : ℝ × TRandom3 :=
  let d := g.Rndm
  (x1 * d.1, d.2)

end TRandom3

/-! ## Utility.cpp -/

namespace Utility

/-- The function `Utility::RandNormal(vec, rng)`. -/
def RandNormal (vec : TVector3) (rng : TRandom3) : TVector3 × TRandom3 :=
  if vec.x = 0 ∧ vec.y = 0 ∧ vec.z = 0 then
    (⟨1, 0, 0⟩, rng)
  else
    let other_vec := vec.add ⟨1, 0, 0⟩
    let normal := (vec.Cross other_vec).Unit
    let d := rng.Uniform (2 * Real.pi)
    (normal.Rotate d.1 vec, d.2)

/-- The function `Utility::MakeRotation(elevation_angle)`. -/
def MakeRotation (elevation_angle : ℝ) : TRotation :=
  TRotation.identity.RotateX (-(Real.pi / 2) + elevation_angle)

/-- The function `Utility::RandLinear(rng, max)`; `rng->Uniform()` is
`Uniform(1)`. -/
def RandLinear (rng : TRandom3) (max : ℝ) : ℝ × TRandom3 :=
  let d := rng.Uniform 1
  (max * Real.sqrt d.1, d.2)

end Utility

/-! ## reconstruction.cpp -/

/-- What `FitSDPlane` reads from a photon-count cube. The container class is
only declared in the sources, so its two accessors are parameters: the pixel
indices `(iter.X(), iter.Y())` that the signal iterator yields, in order,
between `Reset()` and the first `Next()` returning false, and the integer
`SumBins` of all time bins of a pixel. -/
structure CubeAccess (PhotonCount : Type) where
  Iterate : PhotonCount → List (ℤ × ℤ)
  SumBins : PhotonCount → ℤ × ℤ → ℤ

/-- Result of ROOT's symmetric eigen-solver `TMatrixDSymEigen` on a 3x3
matrix: the vector of eigenvalues and the matrix of eigenvectors, the entry
`GetEigenVectors i j` being what the code writes `eigen_vec[i][j]` (row `i`,
column `j`). -/
structure TMatrixDSymEigen where
  GetEigenValues : List ℝ
  GetEigenVectors : Matrix (Fin 3) (Fin 3) ℝ

/-- The contract of the eigen-solver on the matrix `M`: three eigenvalues, an
orthogonal matrix `V`, and the columns of `V` are the eigenvectors belonging
to the eigenvalues in the same order (`M V = V diag(e)`). -/
def TMatrixDSymEigen.IsDecompositionOf (r : TMatrixDSymEigen)
    (M : Matrix (Fin 3) (Fin 3) ℝ) : Prop :=
  r.GetEigenValues.length = 3 ∧
  r.GetEigenVectors.transpose * r.GetEigenVectors = 1 ∧
  M * r.GetEigenVectors
    = r.GetEigenVectors * Matrix.diagonal (fun i : Fin 3 => r.GetEigenValues.getD i.val 0)

/-- The members of `Simulator` that `FitSDPlane` uses: the view direction of
a pixel, the detector-to-world rotation and the eigen-solver. -/
structure Reconstruction where
  CameraIndexToViewDirection : ℤ → ℤ → TVector3
  rotate_to_world : TRotation
  eigen : Matrix (Fin 3) (Fin 3) ℝ → TMatrixDSymEigen

namespace Simulator

/-- One entry of the matrix of `FitSDPlane`: the inner `while (iter.Next())`
loop, which starts from 0 and adds `direction[j] * direction[k] * pmt_sum`
for every pixel the iterator yields. -/
def matElement {PhotonCount : Type} (sim : Reconstruction) (acc : CubeAccess PhotonCount)
    (data : PhotonCount) (j k : Fin 3) : ℝ :=
  (acc.Iterate data).foldl
    (fun mat_element p =>
      let direction := sim.CameraIndexToViewDirection p.1 p.2
      let pmt_sum := acc.SumBins data p
      mat_element + direction.get j * direction.get k * (pmt_sum : ℝ))
    0

/-- The matrix that the two outer loops of `FitSDPlane` fill in. -/
def sdpMatrix {PhotonCount : Type} (sim : Reconstruction) (acc : CubeAccess PhotonCount)
    (data : PhotonCount) : Matrix (Fin 3) (Fin 3) ℝ :=
  Matrix.of (fun j k => matElement sim acc data j k)

/-- The search loop of `FitSDPlane` from index `i` on: `rest` holds
`eigen_val[i]`, `eigen_val[i+1]`, ..; the current candidate is replaced only
by a strictly smaller value. Returns the final `min_index`. -/
def minIndexLoop : List ℝ → ℕ → ℝ → ℕ → ℕ
  | [], _, _, min_index => min_index
  | v :: rest, i, min_val, min_index =>
    if v < min_val then minIndexLoop rest (i + 1) v i
    else minIndexLoop rest (i + 1) min_val min_index

/-- The index that `FitSDPlane` selects: `min_val = eigen_val[0]`,
`min_index = 0`, then the loop over all indices from 0. Reading
`eigen_val[0]` of an empty vector is an error, modelled by `none`. -/
def minIndex (eigen_val : List ℝ) : Option ℕ :=
  match eigen_val with
  | [] => none
  | v0 :: _ => some (minIndexLoop eigen_val 0 v0 0)

/-- The vector `result` of `FitSDPlane`, before the rotation to the world
frame: the entries `eigen_vec[min_index][0]`, `[1]`, `[2]`. An index outside
the 3x3 matrix is an error, modelled by `none`. -/
def extractResult (r : TMatrixDSymEigen) : Option TVector3 :=
  match minIndex r.GetEigenValues with
  | none => none
  | some min_index =>
    if h : min_index < 3 then
      let eigen_vec := r.GetEigenVectors
      some ⟨eigen_vec ⟨min_index, h⟩ 0, eigen_vec ⟨min_index, h⟩ 1, eigen_vec ⟨min_index, h⟩ 2⟩
    else none

/-- The function `Simulator::FitSDPlane(data)`. -/
def FitSDPlane {PhotonCount : Type} (sim : Reconstruction) (acc : CubeAccess PhotonCount)
    (data : PhotonCount) : Option TVector3 :=
  let matrix := sdpMatrix sim acc data
  let eigen := sim.eigen matrix
  match extractResult eigen with
  | none => none
  | some result => some (sim.rotate_to_world.apply result)

end Simulator

/-! ## shower_simulator.cpp -/

/-- The class `Ray`: current time, position and velocity. -/
structure Ray where
  current_time : ℝ
  current_position : TVector3
  current_velocity : TVector3

/-- The accessor `Ray::GetTime`. -/
def Ray.GetTime (r : Ray) : ℝ := r.current_time

/-- The accessor `Ray::GetPosition`. -/
def Ray.GetPosition (r : Ray) : TVector3 := r.current_position

/-- The functions that `SimulateOptics` calls and whose bodies are not part of
the sources, as parameters. A C++ function returning `bool` and writing a
point through its second argument returns the pair of both; a function
changing the photon it is handed returns the changed photon. -/
structure Optics (PhotonCount : Type) where
  DeflectFromLens : Ray → Bool × Ray
  MirrorImpactPoint : Ray → Bool × TVector3
  BlockedByCamera : TVector3 → TVector3 → Bool
  MirrorNormal : TVector3 → TVector3
  CameraImpactPoint : Ray → Bool × TVector3
  GetViewDirection : TVector3 → TVector3
  PropagateToPoint : Ray → TVector3 → Ray
  Reflect : Ray → TVector3 → Ray
  AddPoint : PhotonCount → TVector3 → ℝ → PhotonCount

namespace Simulator

/-- The function `Simulator::SimulateOptics(photon, photon_count)`; the
result is the cube after the call. -/
def SimulateOptics {PhotonCount : Type} (o : Optics PhotonCount) (photon : Ray)
    (photon_count : PhotonCount) : PhotonCount :=
  let photon := (o.DeflectFromLens photon).2
  let mirror := o.MirrorImpactPoint photon
  let reflect_point := mirror.2
  if !mirror.1 then photon_count
  else if o.BlockedByCamera photon.GetPosition reflect_point then photon_count
  else
    let photon := o.PropagateToPoint photon reflect_point
    let photon := o.Reflect photon (o.MirrorNormal reflect_point)
    let camera := o.CameraImpactPoint photon
    let camera_impact := camera.2
    if !camera.1 then photon_count
    else
      let photon := o.PropagateToPoint photon camera_impact
      o.AddPoint photon_count (o.GetViewDirection camera_impact) photon.GetTime

end Simulator

/-! ## data_containers.h -/

/-- The class `PhotonCount`: the geometry of the camera and, for every pixel
`(x, y)`, the time series of counts, one per time bin. The counts are the
non-negative integers of the data model. -/
structure PhotonCount where
  n_pmt_across : ℕ
  start_time : ℝ
  time_bin : ℝ
  pmt_angular_size : ℝ
  pmt_linear_size : ℝ
  photon_counts : ℤ × ℤ → List ℕ

namespace PhotonCount

/-- Modelled from the spec: the body of `PhotonCount::ValidPixel` is not part
of the sources. A pixel is valid when it lies in the disk
`(x - c)^2 + (y - c)^2 <= (N/2)^2` with `c = N/2` and `N = n_pmt_across`. -/
def ValidPixel (c : PhotonCount) (x_index y_index : ℤ) : Prop :=
  ((x_index : ℚ) - (c.n_pmt_across : ℚ) / 2) ^ 2 + ((y_index : ℚ) - (c.n_pmt_across : ℚ) / 2) ^ 2
    ≤ ((c.n_pmt_across : ℚ) / 2) ^ 2

instance (c : PhotonCount) (x_index y_index : ℤ) : Decidable (c.ValidPixel x_index y_index) :=
  inferInstanceAs (Decidable (_ ≤ _))

/-- Modelled from the spec: the body of `PhotonCount::TimeBin` is not part of
the sources. The bin of a time is `floor((t - start_time) / bin_width)`. -/
def TimeBin (c : PhotonCount) (time : ℝ) : ℤ := ⌊(time - c.start_time) / c.time_bin⌋

/-- Modelled from the spec: the bodies of `PhotonCount::ExpandVector` and of
the increment are not part of the sources. The time series is grown with
zero counts until it covers the bin, and the count of the bin is raised by
the weight. -/
def incrementBin : List ℕ → ℕ → ℕ → List ℕ
  | [], 0, weight => [weight]
  | [], bin + 1, weight => 0 :: incrementBin [] bin weight
  | count :: rest, 0, weight => (count + weight) :: rest
  | count :: rest, bin + 1, weight => count :: incrementBin rest bin weight

/-- Modelled from the spec: the body of `PhotonCount::AddPhoton` is not part
of the sources. The direction is mapped to a pixel by `DirectionToPixel`, the
inverse of the pixel direction mapping, which is a parameter; when the pixel
is outside the disk or the time is before `start_time` the photon is dropped;
otherwise the time series of the pixel is grown to cover the bin of the time
and the count of that bin is raised by `weight`, the thinning factor (one
photon stands for `weight` photons). The declaration in data_containers.h
takes the time and the direction only: that is the call with weight 1. -/
def AddPhoton (DirectionToPixel : TVector3 → ℤ × ℤ) (c : PhotonCount) (time : ℝ)
    (direction : TVector3) (weight : ℕ) : PhotonCount :=
  let pixel := DirectionToPixel direction
  if ¬ c.ValidPixel pixel.1 pixel.2 ∨ time < c.start_time then c
  else
    { c with
      photon_counts :=
        Function.update c.photon_counts pixel
          (incrementBin (c.photon_counts pixel) (c.TimeBin time).toNat weight) }

/-- The count of one time bin of one pixel; a bin beyond the end of the time
series has not been seen and counts zero. -/
def binCount (c : PhotonCount) (pixel : ℤ × ℤ) (bin : ℕ) : ℕ := (c.photon_counts pixel).getD bin 0

/-- Modelled from the spec: the body of `PhotonCount::SumBins` is not part of
the sources. The sum over the time series of a pixel. -/
def SumBins (c : PhotonCount) (pixel : ℤ × ℤ) : ℕ := (c.photon_counts pixel).sum

/-- The valid pixels of the cube: the pixels of the disk, all of which have
both indices between 0 and `n_pmt_across`. -/
def validPixels (c : PhotonCount) : Finset (ℤ × ℤ) :=
  (Finset.Icc (0 : ℤ) c.n_pmt_across ×ˢ Finset.Icc (0 : ℤ) c.n_pmt_across).filter
    (fun p => c.ValidPixel p.1 p.2)

/-- The total count of the cube: the sum of `SumBins` over the valid pixels. -/
def totalCount (c : PhotonCount) : ℕ := ∑ p in c.validPixels, c.SumBins p

end PhotonCount

/-! ## geometric_objects.h -/

/-- Modelled from the spec: the body of `Ray::Reflect` is not part of the
sources. The velocity `v` is replaced by `v - 2 (v . u) u`, where `u` is the
normal scaled to length one. -/
def Ray.Reflect (r : Ray) (normal : TVector3) : Ray :=
  let u := normal.Unit
  let k := 2 * r.current_velocity.Dot u
  { r with current_velocity := r.current_velocity.sub ⟨k * u.x, k * u.y, k * u.z⟩ }

/-! ## C++ conversions and more of ROOT -/

/-- Conversion of a `double` to an integer type, `(int) x`: the fractional
part is dropped, which rounds toward zero. -/
def castToInt (x : ℝ) : ℤ := if 0 ≤ x then ⌊x⌋ else ⌈x⌉

/-- The least value of the 32-bit types `int` and `Int_t`. -/
def INT_MIN : ℤ := -2147483648

/-- The greatest value of the 32-bit types `int` and `Int_t`. -/
def INT_MAX : ℤ := 2147483647

/-- The value that 32-bit `int` arithmetic keeps of the exact result `n`: the
result itself when it fits, and its two's complement wrap-around, modulo
2^32, when it overflows. -/
def wrapInt32 (n : ℤ) : ℤ := (n + 2147483648) % 4294967296 - 2147483648

/-- Conversion of a `double` to the 32-bit `int` or `Int_t`, `(int) x`: the
fractional part is dropped when the result fits the type. When it does not,
the conversion is out of range, which C++ leaves undefined; the embedding
takes the value that the conversion instruction of x86 processors returns
then, `INT_MIN`. -/
def castToInt32 (x : ℝ) : ℤ :=
  if INT_MIN ≤ castToInt x ∧ castToInt x ≤ INT_MAX then castToInt x else INT_MIN

/-- The function `TMath::ATan2(y, x)`: the angle of the point `(x, y)`. -/
def TMath.ATan2 (y x : ℝ) : ℝ := Complex.arg ⟨x, y⟩

/-- Distance from the z axis, `TVector3::Perp`. -/
def TVector3.Perp (a : TVector3) : ℝ := Real.sqrt (a.x * a.x + a.y * a.y)

/-- Polar angle, `TVector3::Theta`: 0 for the zero vector and
`ATan2(Perp(), fZ)` otherwise. -/
def TVector3.Theta (a : TVector3) : ℝ :=
  if a.x = 0 ∧ a.y = 0 ∧ a.z = 0 then 0 else TMath.ATan2 a.Perp a.z

/-- Product with a number, `TVector3::operator*(Double_t)`. -/
def TVector3.smul (a : TVector3) (k : ℝ) : TVector3 := ⟨k * a.x, k * a.y, k * a.z⟩

/-- Negation, the unary `operator-`. -/
def TVector3.neg (a : TVector3) : TVector3 := ⟨-a.x, -a.y, -a.z⟩

/-- Rotation of a vector about the y axis, `TVector3::RotateY(angle)`. -/
def TVector3.RotateY (a : TVector3) (angle : ℝ) : TVector3 :=
  let s := Real.sin angle
  let c := Real.cos angle
  let zz := a.z
  { a with z := c * zz - s * a.x, x := s * zz + c * a.x }

/-! ## RayTracing/TAnalysis.cpp -/

/-- The class `TDataCollection`, whose declaration is not part of the
sources: the sequence of the detected points `(x, y)`, with the accessors
that `TAnalysis` uses, after the sibling class `TRawData`. -/
structure TDataCollection where
  points : List (ℝ × ℝ)

namespace TDataCollection

/-- The accessor `Size()`: the number of points. -/
def Size (data : TDataCollection) : ℕ := data.points.length

/-- The accessor `GetXData()`: the x coordinates of all points. -/
def GetXData (data : TDataCollection) : List ℝ := data.points.map Prod.fst

/-- The accessor `GetYData()`: the y coordinates of all points. -/
def GetYData (data : TDataCollection) : List ℝ := data.points.map Prod.snd

/-- The accessor `GetX(i)`: the x coordinate of point `i`. -/
def GetX (data : TDataCollection) (i : ℕ) : ℝ := (data.points.getD i (0, 0)).1

/-- The accessor `GetY(i)`: the y coordinate of point `i`. -/
def GetY (data : TDataCollection) (i : ℕ) : ℝ := (data.points.getD i (0, 0)).2

end TDataCollection

namespace TAnalysis

/-- The function `TAnalysis::SumArray(array)`. -/
def SumArray (array : List ℝ) : ℝ := array.foldl (fun sum d => sum + d) 0

/-- The function `TAnalysis::FindRMSDeviation(data)`. -/
def FindRMSDeviation (data : TDataCollection) : ℝ :=
  let n := data.Size
  let xAverage := SumArray data.GetXData / (n : ℝ)
  let yAverage := SumArray data.GetYData / (n : ℝ)
  let variance := (List.range n).foldl
    (fun variance i =>
      variance + ((data.GetX i - xAverage) * (data.GetX i - xAverage)
        + (data.GetY i - yAverage) * (data.GetY i - yAverage)))
    0
  let variance := variance / (n : ℝ)
  Real.sqrt variance

/-- The collaborators of `FindRMSVsAngle` whose bodies are not part of the
sources, as parameters: the constant `TRay::fLightSpeed`; the construction
`TShower(TRay(time, position, direction), new TConstantIntensity(sampleNumber))`;
`telescope.ViewPoint(shower, data)`, which may change the telescope (its
random generator) and the data; and the shower members `IncrementPosition`
and `GetPosition`. -/
structure Parts (TTelescope TShower : Type) where
  fLightSpeed : ℝ
  NewShower : ℝ → TVector3 → TVector3 → ℤ → TShower
  ViewPoint : TTelescope → TShower → TDataCollection → TTelescope × TDataCollection
  IncrementPosition : TShower → ℝ → TShower
  GetPosition : TShower → TVector3

/-- What a call of `FindRMSVsAngle` leaves behind: whether it returned or
threw `std::invalid_argument` (with its message), and the contents of the
two output vectors, which the caller keeps in either case. -/
structure Outcome where
  result : Except String Unit
  RMS : List ℝ
  angle : List ℝ

/-- The check of the angle bounds in `FindRMSVsAngle`: the bounds are swapped
when `minAngle > maxAngle`; otherwise equal bounds throw
`std::invalid_argument`. Returns the bounds in use afterwards. -/
def checkAngles (minAngle maxAngle : ℝ) : Except String (ℝ × ℝ) :=
  if minAngle > maxAngle then
    let temp := minAngle
    .ok (maxAngle, temp)
  else if minAngle = maxAngle then
    .error "The minimum and the maximum angles must be different"
  else .ok (minAngle, maxAngle)

/-- The local `startingHeight` of `FindRMSVsAngle`. -/
def startingHeight (minAngle zDistance : ℝ) : ℝ := zDistance * Real.tan minAngle

/-- The local `endingHeight` of `FindRMSVsAngle`. -/
def endingHeight (maxAngle zDistance : ℝ) : ℝ := zDistance * Real.tan maxAngle

/-- The local `nSteps` of `FindRMSVsAngle`, an `Int_t`: the quotient
converted to `Int_t`, plus 1 in `Int_t` arithmetic. -/
def nSteps (fLightSpeed timeDelay minAngle maxAngle zDistance : ℝ) : ℤ :=
  wrapInt32
    (castToInt32 ((endingHeight maxAngle zDistance - startingHeight minAngle zDistance)
      / (timeDelay * fLightSpeed)) + 1)

/-- The loop of `FindRMSVsAngle` with `k` rounds still to go: view the
shower, step it, and push the RMS deviation of all data so far and the polar
angle of the stepped shower. -/
def collect {TTelescope TShower : Type} (P : Parts TTelescope TShower) (timeDelay : ℝ) :
    ℕ → TTelescope → TShower → TDataCollection → List ℝ → List ℝ → List ℝ × List ℝ
  | 0, _, _, _, RMS, angle => (RMS, angle)
  | k + 1, telescope, shower, data, RMS, angle =>
    let viewed := P.ViewPoint telescope shower data
    let shower := P.IncrementPosition shower timeDelay
    let standardDeviation := FindRMSDeviation viewed.2
    collect P timeDelay k viewed.1 shower viewed.2
      (RMS ++ [standardDeviation]) (angle ++ [(P.GetPosition shower).Theta])

/-- The function `TAnalysis::FindRMSVsAngle`; the two output vectors come in
with the contents the caller left in them. -/
def FindRMSVsAngle {TTelescope TShower : Type} (P : Parts TTelescope TShower)
    (_RMS _angle : List ℝ) (telescope : TTelescope) (sampleNumber : ℤ)
    (timeDelay minAngle maxAngle zDistance : ℝ) : Outcome :=
  let RMS : List ℝ := []
  let angle : List ℝ := []
  match checkAngles minAngle maxAngle with
  | .error message => ⟨.error message, RMS, angle⟩
  | .ok (minAngle, maxAngle) =>
    let nSteps := nSteps P.fLightSpeed timeDelay minAngle maxAngle zDistance
    let shower := P.NewShower 0 ⟨startingHeight minAngle zDistance, 0, zDistance⟩ ⟨1, 0, 0⟩
      sampleNumber
    let data : TDataCollection := ⟨[]⟩
    let out := collect P timeDelay nSteps.toNat telescope shower data RMS angle
    ⟨.ok (), out.1, out.2⟩

end TAnalysis

/-! ## shower_simulator.cpp: the viewing loops -/

/-- The class `Plane` of geometric_objects.h: a normal vector and the
coefficient of the plane equation. -/
structure Plane where
  normal_vector : TVector3
  coefficient : ℝ

/-- Modelled from the spec: the body of `Ray::IncrementPosition` is not part
of the sources. Time and position are advanced consistently: the time by
`time`, the position by the velocity times `time`. -/
def Ray.IncrementPosition (r : Ray) (time : ℝ) : Ray :=
  { r with
    current_time := r.current_time + time
    current_position := r.current_position.add (r.current_velocity.smul time) }

/-- The class `Shower`, a `Ray` with the time and the position of its start. -/
structure Shower extends Ray where
  start_time : ℝ
  start_position : TVector3

/-- The member `IncrementPosition` that `Shower` inherits from `Ray`. -/
def Shower.IncrementPosition (s : Shower) (time : ℝ) : Shower :=
  { s with toRay := s.toRay.IncrementPosition time }

/-- The functions that the viewing loops call and whose bodies are not part
of the sources, as parameters. `G` is the state of the random generator of
the simulator: a function that draws from it returns the advanced state. A
C++ function returning `bool` and changing its argument returns both. -/
structure Emission (G : Type) where
  NewRay : ℝ → TVector3 → TVector3 → Ray
  NumberFluorescencePhotons : Shower → ℤ
  FluorescenceFractionCaptured : Shower → ℝ
  RandomStopImpact : G → TVector3 × G
  NumberCherenkovPhotons : Shower → ℤ
  GenerateCherenkovPhoton : Shower → G → Ray × G
  PropagateToPlane : Ray → Plane → Ray
  ReflectFromGround : Ray → G → (Bool × Ray) × G
  LensImpactPoint : Ray → Bool × TVector3

namespace Simulator

/-- The local `n_steps` of `Simulator::SimulateShower`, an `int`, from the
value of `shower.TimeToPlane(ground_plane)` and the configured `time_delay`:
the quotient converted to `int`, plus 2 in `int` arithmetic. -/
def n_steps (time_to_plane time_delay : ℝ) : ℤ :=
  wrapInt32 (castToInt32 (time_to_plane / time_delay) + 2)

/-- The stepping loop of `SimulateShower` with `k` rounds to go: the shower
is viewed, which changes the state `st` of cube and generator, and then
advanced by `time_delay`. -/
def stepLoop {St : Type} (view : Shower → St → St) (time_delay : ℝ) : ℕ → Shower → St → St
  | 0, _, st => st
  | k + 1, shower, st => stepLoop view time_delay k (shower.IncrementPosition time_delay)
      (view shower st)

/-- The shower after `i` calls of `IncrementPosition(time_delay)`. -/
def showerAt (shower : Shower) (time_delay : ℝ) (i : ℕ) : Shower :=
  (fun s : Shower => s.IncrementPosition time_delay)^[i] shower

/-- One round of the loop of `ViewFluorescencePhotons`: a point of the stop
is drawn, a photon is made at the shower and propagated to that point, and
the photon is handed to `trace`, which is `SimulateOptics`. -/
def fluorescenceStep {PhotonCount G : Type} (PropagateToPoint : Ray → TVector3 → Ray)
    (E : Emission G) (trace : Ray → PhotonCount → PhotonCount) (shower : Shower)
    (st : PhotonCount × G) : PhotonCount × G :=
  let drawn := E.RandomStopImpact st.2
  let lens_impact := drawn.1
  let photon := E.NewRay shower.GetTime shower.GetPosition (lens_impact.sub shower.GetPosition)
  let photon := PropagateToPoint photon lens_impact
  (trace photon st.1, drawn.2)

/-- The loop of `ViewFluorescencePhotons` with `k` rounds to go. -/
def fluorescenceLoop {PhotonCount G : Type} (PropagateToPoint : Ray → TVector3 → Ray)
    (E : Emission G) (trace : Ray → PhotonCount → PhotonCount) (shower : Shower) :
    ℕ → PhotonCount × G → PhotonCount × G
  | 0, st => st
  | k + 1, st =>
    fluorescenceLoop PropagateToPoint E trace shower k
      (fluorescenceStep PropagateToPoint E trace shower st)

/-- The local `number_detected` of `ViewFluorescencePhotons`. -/
def number_detected {G : Type} (E : Emission G) (shower : Shower) : ℤ :=
  let total_photons := E.NumberFluorescencePhotons shower
  let fraction_captured := E.FluorescenceFractionCaptured shower
  castToInt ((total_photons : ℝ) * fraction_captured)

/-- The function `Simulator::ViewFluorescencePhotons(shower, photon_count)`;
the state is the cube together with the random generator. -/
def ViewFluorescencePhotons {PhotonCount G : Type} (o : Optics PhotonCount) (E : Emission G)
    (shower : Shower) (st : PhotonCount × G) : PhotonCount × G :=
  fluorescenceLoop o.PropagateToPoint E (SimulateOptics o) shower
    (number_detected E shower).toNat st

/-- The first half of a round of the loop of `ViewCherenkovPhotons`: a photon
is generated, propagated to the ground plane and handed to
`ReflectFromGround`. Returns the flag and the photon that `ReflectFromGround`
leaves, and the advanced generator. -/
def groundReflection {G : Type} (E : Emission G) (shower : Shower) (ground_plane : Plane)
    (g : G) : (Bool × Ray) × G :=
  let generated := E.GenerateCherenkovPhoton shower g
  let photon := E.PropagateToPlane generated.1 ground_plane
  E.ReflectFromGround photon generated.2

/-- One round of the loop of `ViewCherenkovPhotons`: after the reflection
from the ground the round ends (`continue`) when `ReflectFromGround` or
`LensImpactPoint` returned false; otherwise the photon is propagated to the
stop and handed to `trace`, which is `SimulateOptics`. -/
def cherenkovStep {PhotonCount G : Type} (PropagateToPoint : Ray → TVector3 → Ray)
    (E : Emission G) (trace : Ray → PhotonCount → PhotonCount) (shower : Shower)
    (ground_plane : Plane) (st : PhotonCount × G) : PhotonCount × G :=
  let reflected := groundReflection E shower ground_plane st.2
  if !reflected.1.1 then (st.1, reflected.2)
  else
    let photon := reflected.1.2
    let lens := E.LensImpactPoint photon
    let stop_impact := lens.2
    if !lens.1 then (st.1, reflected.2)
    else
      let photon := PropagateToPoint photon stop_impact
      (trace photon st.1, reflected.2)

/-- The loop of `ViewCherenkovPhotons` with `k` rounds to go. -/
def cherenkovLoop {PhotonCount G : Type} (PropagateToPoint : Ray → TVector3 → Ray)
    (E : Emission G) (trace : Ray → PhotonCount → PhotonCount) (shower : Shower)
    (ground_plane : Plane) : ℕ → PhotonCount × G → PhotonCount × G
  | 0, st => st
  | k + 1, st =>
    cherenkovLoop PropagateToPoint E trace shower ground_plane k
      (cherenkovStep PropagateToPoint E trace shower ground_plane st)

/-- The function
`Simulator::ViewCherenkovPhotons(shower, ground_plane, photon_count)`. -/
def ViewCherenkovPhotons {PhotonCount G : Type} (o : Optics PhotonCount) (E : Emission G)
    (shower : Shower) (ground_plane : Plane) (st : PhotonCount × G) : PhotonCount × G :=
  cherenkovLoop o.PropagateToPoint E (SimulateOptics o) shower ground_plane
    (E.NumberCherenkovPhotons shower).toNat st

/-- The configuration and the remaining collaborators of `SimulateShower`,
as parameters: the configured `time_delay`, the ground plane built from the
configured normal and point, `Ray::TimeToPlane`, the empty cube
`PhotonCount(config)`, `AddNoise` and `VoltageResponse`. -/
structure ShowerRun (PhotonCount G VoltageSignal : Type) where
  time_delay : ℝ
  ground_plane : Plane
  TimeToPlane : Shower → Plane → ℝ
  emptyCount : PhotonCount
  AddNoise : PhotonCount × G → PhotonCount × G
  VoltageResponse : PhotonCount → VoltageSignal

/-- The function `Simulator::SimulateShower(shower)`, for the generator
state `g`. -/
def SimulateShower {PhotonCount G VoltageSignal : Type} (o : Optics PhotonCount)
    (E : Emission G) (run : ShowerRun PhotonCount G VoltageSignal) (shower : Shower) (g : G) :
    VoltageSignal × G :=
  let time_delay := run.time_delay
  let ground_plane := run.ground_plane
  let n_steps := n_steps (run.TimeToPlane shower ground_plane) time_delay
  let photon_count := run.emptyCount
  let st := stepLoop
    (fun shower st => ViewCherenkovPhotons o E shower ground_plane
      (ViewFluorescencePhotons o E shower st))
    time_delay n_steps.toNat shower (photon_count, g)
  let st := run.AddNoise st
  (run.VoltageResponse st.1, st.2)

end Simulator

/-! ## RayTracing/TTelescope.cpp -/

/-- The class `TTelescope`, with the members that the sources use. The plane
class is only declared in the sources, so the type `Pl` of planes and the
constructor of a plane from a normal and a point are parameters. -/
structure TTelescope (Pl : Type) where
  fHeight : ℝ
  fWidth : ℝ
  fRadius : ℝ
  fInclination : ℝ
  fMirrorAxis : TVector3
  fFocalPlane : Pl
  fGroundPlane : Pl

namespace TTelescope

/-- The constructor
`TTelescope(radius, focalLength, inclinationAngle, height, width, groudHeight)`. -/
def new {Pl : Type} (NewPlane : TVector3 → TVector3 → Pl)
    (radius focalLength inclinationAngle height width groudHeight : ℝ) : TTelescope Pl :=
  let fMirrorAxis := (⟨1, 0, 0⟩ : TVector3).RotateY inclinationAngle
  let focalPlaneCenter := (⟨-radius + focalLength, 0, 0⟩ : TVector3).RotateY inclinationAngle
  { fHeight := height
    fWidth := width
    fRadius := radius
    fInclination := inclinationAngle
    fMirrorAxis := fMirrorAxis
    fFocalPlane := NewPlane fMirrorAxis focalPlaneCenter
    fGroundPlane := NewPlane ⟨0, 0, 1⟩ ⟨0, 0, -groudHeight⟩ }

/-- The two random offsets of `RayDetection`, `yRandom` and `zRandom`, drawn
in this order from the generator `fRandom`. -/
def randomOffsets {Pl : Type} (t : TTelescope Pl) (fRandom : TRandom3) : (ℝ × ℝ) × TRandom3 :=
  let d1 := fRandom.Rndm
  let yRandom := (d1.1 - 0.5) * t.fWidth
  let d2 := d1.2.Rndm
  let zRandom := (d2.1 - 0.5) * t.fHeight
  ((yRandom, zRandom), d2.2)

/-- The local `backPlanePoisition` of `RayDetection`. -/
def backPlanePoisition {Pl : Type} (t : TTelescope Pl) (yRandom zRandom : ℝ) : TVector3 :=
  (⟨-t.fRadius, yRandom, zRandom⟩ : TVector3).RotateY t.fInclination

/-- The local `mirrorImpact` of `RayDetection`. -/
def mirrorImpact {Pl : Type} (t : TTelescope Pl) (yRandom zRandom : ℝ) : TVector3 :=
  (t.backPlanePoisition yRandom zRandom).add
    (t.fMirrorAxis.Unit.smul
      (t.fRadius - Real.sqrt (t.fRadius * t.fRadius - yRandom * yRandom - zRandom * zRandom)))

/-- The members of `TRay` that `RayDetection` calls and whose bodies are not
part of the sources, as parameters. -/
structure RayParts (Pl TRay : Type) where
  NewPlane : TVector3 → TVector3 → Pl
  NewRay : TVector3 → TVector3 → TRay
  ReflectFromPlane : TRay → Pl → TRay
  PropagateToPlane : TRay → Pl → TRay
  GetPosition : TRay → TVector3

/-- The function `TTelescope::RayDetection(objectPosition)`, for the state
`fRandom` of the generator of the telescope. -/
def RayDetection {Pl TRay : Type} (R : RayParts Pl TRay) (t : TTelescope Pl)
    (objectPosition : TVector3) (fRandom : TRandom3) : TVector3 × TRandom3 :=
  let drawn := t.randomOffsets fRandom
  let mirrorImpact := t.mirrorImpact drawn.1.1 drawn.1.2
  let detectedRay := R.NewRay mirrorImpact (mirrorImpact.sub objectPosition)
  let detectedRay := R.ReflectFromPlane detectedRay (R.NewPlane mirrorImpact.neg mirrorImpact)
  let detectedRay := R.PropagateToPlane detectedRay t.fFocalPlane
  (R.GetPosition detectedRay, drawn.2)

/-- The local `numberOfSteps` of `TTelescope::ViewShower`, an `Int_t`, from
the value of `shower.TimeToPlane(fGroundPlane)` and `timeDelay`: the quotient
plus 2, converted to `Int_t`. -/
def numberOfSteps (time_to_plane timeDelay : ℝ) : ℤ := castToInt32 (time_to_plane / timeDelay + 2)

/-- The members of `TRay` that `ViewShower` calls on the shower and whose
bodies are not part of the sources, as parameters. -/
structure ShowerParts (Pl TRay : Type) where
  TimeToPlane : TRay → Pl → ℝ
  IncrementPosition : TRay → ℝ → TRay

/-- ROOT graph, as `TGraph(n, y, z)` builds it: the number of points handed
to the constructor and the points `(y[k], z[k])`. The two arrays of
`ViewShower` are filled at the indices `i * sampleNumber + j`, which run
through 0, 1, 2, .. in the order of the writes, so they are held as the list
of the points written. -/
structure TGraph where
  fNpoints : ℤ
  points : List (ℝ × ℝ)

/-- The inner loop of `ViewShower` and the loop of `ViewPoint`, with `k`
rounds to go: one ray detection for the position of the object, turned back
by the inclination, and its y and z coordinates written to the arrays. The
state is the generator of the telescope and the points written so far. -/
def sampleLoop {Pl TRay : Type} (R : RayParts Pl TRay) (t : TTelescope Pl)
    (objectPosition : TVector3) : ℕ → TRandom3 × List (ℝ × ℝ) → TRandom3 × List (ℝ × ℝ)
  | 0, st => st
  | k + 1, st =>
    let detected := RayDetection R t objectPosition st.1
    let planeDetection := detected.1.RotateY (-t.fInclination)
    sampleLoop R t objectPosition k (detected.2, st.2 ++ [(planeDetection.y, planeDetection.z)])

/-- The outer loop of `ViewShower` with `k` rounds to go: `sampleNumber`
detections at the position of the shower, then the shower is advanced by
`timeDelay`. -/
def viewLoop {Pl TRay : Type} (R : RayParts Pl TRay) (S : ShowerParts Pl TRay)
    (t : TTelescope Pl) (timeDelay : ℝ) (sampleNumber : ℤ) :
    ℕ → TRay → TRandom3 × List (ℝ × ℝ) → TRandom3 × List (ℝ × ℝ)
  | 0, _, st => st
  | k + 1, shower, st =>
    viewLoop R S t timeDelay sampleNumber k (S.IncrementPosition shower timeDelay)
      (sampleLoop R t (R.GetPosition shower) sampleNumber.toNat st)

/-- The shower of `ViewShower` after `i` calls of
`IncrementPosition(timeDelay)`. -/
def rayAt {Pl TRay : Type} (S : ShowerParts Pl TRay) (shower : TRay) (timeDelay : ℝ) (i : ℕ) :
    TRay :=
  (fun r : TRay => S.IncrementPosition r timeDelay)^[i] shower

/-- The function `TTelescope::ViewShower(shower, timeDelay, sampleNumber)`,
for the state `fRandom` of the generator of the telescope. -/
def ViewShower {Pl TRay : Type} (R : RayParts Pl TRay) (S : ShowerParts Pl TRay)
    (t : TTelescope Pl) (shower : TRay) (timeDelay : ℝ) (sampleNumber : ℤ)
    (fRandom : TRandom3) : TGraph × TRandom3 :=
  let numberOfSteps := numberOfSteps (S.TimeToPlane shower t.fGroundPlane) timeDelay
  let st := viewLoop R S t timeDelay sampleNumber numberOfSteps.toNat shower (fRandom, [])
  (⟨wrapInt32 (numberOfSteps * sampleNumber), st.2⟩, st.1)

end TTelescope

/-! ## Utility.cpp: strings -/

namespace Utility

/-- The member `std::string::find(c)` on a string given by its characters:
the index of the first occurrence of `c`, or `none` for `npos`. -/
def find : List Char → Char → Option ℕ
  | [], _ => none
  | x :: rest, c => if x = c then some 0 else (find rest c).map (fun i => i + 1)

/-- The function `Utility::ParseTo(s, c)` for the number parser `stod`, which
may throw: returns the parsed number and the string `s` as the call leaves
it. When `c` does not occur, `index` is `npos`: `substr(0, npos)` is the
whole string and `erase(0, npos + 1)` is `erase(0, 0)`, which removes
nothing. -/
def ParseTo (stod : List Char → Except String ℝ) (s : List Char) (c : Char) :
    Except String (ℝ × List Char) :=
  match find s c with
  | some index => (stod (s.take index)).map (fun out => (out, s.drop (index + 1)))
  | none => (stod s).map (fun out => (out, s))

/-- The function `Utility::ToVector(s)` for the number parser `stod`. When
there is no parenthesis, `find` returns `npos`, which the `int current`
holds as `-1`, and `erase(0, current + 1)` removes nothing. -/
def ToVector (stod : List Char → Except String ℝ) (s : List Char) : Except String TVector3 :=
  let current : ℤ :=
    match find s '(' with
    | some index => (index : ℤ)
    | none => -1
  let s := s.drop (current + 1).toNat
  (ParseTo stod s ',').bind fun x =>
    (ParseTo stod x.2 ',').bind fun y =>
      (ParseTo stod y.2 ')').bind fun z =>
        .ok ⟨x.1, y.1, z.1⟩

end Utility

/-! ## CherenkovSimulator/TCoordinates.cpp -/

/-- Rotation of a vector about the x axis, `TVector3::RotateX(angle)`. -/
def TVector3.RotateX (a : TVector3) (angle : ℝ) : TVector3 :=
  let s := Real.sin angle
  let c := Real.cos angle
  let yy := a.y
  { a with y := c * yy - s * a.z, z := s * yy + c * a.z }

/-- The class `TCoordinates`: the azimuth and the elevation of the
observatory and its centre of curvature. -/
structure TCoordinates where
  fAzimuth : ℝ
  fElevation : ℝ
  fCenterOfCurvature : TVector3

namespace TCoordinates

/-- The function `TCoordinates::DirectionToObservatoryFrame(direction)`; the
result is the vector that the call leaves in its argument. -/
def DirectionToObservatoryFrame (c : TCoordinates) (direction : TVector3) : TVector3 :=
  let direction := direction.RotateX (-c.fElevation)
  direction.RotateY (-c.fAzimuth)

/-- The function `TCoordinates::DirectionToExternalFrame(direction)`. -/
def DirectionToExternalFrame (c : TCoordinates) (direction : TVector3) : TVector3 :=
  let direction := direction.RotateX c.fElevation
  direction.RotateY c.fAzimuth

/-- The function `TCoordinates::PositionToObservatoryFrame(position)`. -/
def PositionToObservatoryFrame (c : TCoordinates) (position : TVector3) : TVector3 :=
  let position := position.sub c.fCenterOfCurvature
  c.DirectionToObservatoryFrame position

/-- The function `TCoordinates::PositionToExternalFrame(position)`. -/
def PositionToExternalFrame (c : TCoordinates) (position : TVector3) : TVector3 :=
  let position := c.DirectionToExternalFrame position
  position.add c.fCenterOfCurvature

/-- The function `TCoordinates::GetMirrorAxis()`. -/
def GetMirrorAxis (c : TCoordinates) : TVector3 := c.DirectionToExternalFrame ⟨0, 0, 1⟩

end TCoordinates

/-! ## RayTracing/Main.cpp -/

/-- The expression under the square root in `TTelescope::RayDetection`,
`fRadius * fRadius - yRandom * yRandom - zRandom * zRandom`. -/
def TTelescope.radicand {Pl : Type} (t : TTelescope Pl) (yRandom zRandom : ℝ) : ℝ :=
  t.fRadius * t.fRadius - yRandom * yRandom - zRandom * zRandom

/-- The telescope that `main` constructs, `TTelescope(1, 0, 2, 2, 1, 50)`:
radius 1, focal length 0, inclination angle 2, height 2, width 1, height
above the ground 50. -/
def Main.telescope {Pl : Type} (NewPlane : TVector3 → TVector3 → Pl) : TTelescope Pl :=
  TTelescope.new NewPlane 1 0 2 2 1 50

/-! ## Sample inputs -/

/-- A cube given by its per-pixel sums, with the iterator running over the
two pixels (0,0) and (1,0). -/
def twoPixelAccess : CubeAccess (ℤ × ℤ → ℤ) where
  Iterate := fun _ => [(0, 0), (1, 0)]
  SumBins := fun data p => data p

/-- Two counts in pixel (0,0), one count in every other pixel. -/
def twoPixelData : ℤ × ℤ → ℤ := fun p => if p = (0, 0) then 2 else 1

/-- A detector whose pixel (0,0) looks along (0, 3/5, 4/5) and whose other
pixels look along (0, -4/5, 3/5), with the identity as detector-to-world
rotation. Both directions lie in the plane `x = 0`. The eigen-solver answers
with the decomposition of the matrix of `twoPixelData`: eigenvalues 2, 1, 0
in ROOT's descending order, the eigenvectors (0, 3/5, 4/5), (0, -4/5, 3/5),
(1, 0, 0) as columns. -/
def twoPixelSim : Reconstruction where
  CameraIndexToViewDirection := fun x _ => if x = 0 then ⟨0, 3 / 5, 4 / 5⟩ else ⟨0, -4 / 5, 3 / 5⟩
  rotate_to_world := TRotation.identity
  eigen := fun _ => ⟨[2, 1, 0], !![0, 0, 1; 3 / 5, -4 / 5, 0; 4 / 5, 3 / 5, 0]⟩

/-- A cube in which the iterator finds no pixel at all. -/
def darkAccess : CubeAccess Unit where
  Iterate := fun _ => []
  SumBins := fun _ _ => 0

/-- A detector for the dark cube: the eigen-solver answers the zero matrix
with three eigenvalues 0 and the identity as eigenvector matrix. -/
def darkSim : Reconstruction where
  CameraIndexToViewDirection := fun _ _ => ⟨0, 0, -1⟩
  rotate_to_world := TRotation.identity
  eigen := fun _ => ⟨[0, 0, 0], 1⟩

/-- An optics bench whose corrector lens reports failure for every photon
and hands the photon back as it came, while the mirror is always hit at
(0, 0, -1), the camera never blocks, and the camera is always hit at the
origin. The cube is the list of the deposits made, newest first. -/
def lensFailOptics : Optics (List (TVector3 × ℝ)) where
  DeflectFromLens := fun photon => (false, photon)
  MirrorImpactPoint := fun _ => (true, ⟨0, 0, -1⟩)
  BlockedByCamera := fun _ _ => false
  MirrorNormal := fun point => point
  CameraImpactPoint := fun _ => (true, ⟨0, 0, 0⟩)
  GetViewDirection := fun point => point
  PropagateToPoint := fun ray point => { ray with current_position := point }
  Reflect := fun ray _ => ray
  AddPoint := fun photon_count direction time => (direction, time) :: photon_count

/-- A photon at the corrector plate at time 7, flying down the detector axis. -/
def platePhoton : Ray := ⟨7, ⟨0, 0, 0⟩, ⟨0, 0, -1⟩⟩

/-- A cube of four pixels across, starting at time 0 with bins of width 1,
with the counts 5, 0, 2 in pixel (2, 2) and no other pixel seen. -/
def smallCube : PhotonCount where
  n_pmt_across := 4
  start_time := 0
  time_bin := 1
  pmt_angular_size := 1
  pmt_linear_size := 1
  photon_counts := fun p => if p = (2, 2) then [5, 0, 2] else []

/-- A shower at the origin at time 10, falling with velocity (0, 0, -1). -/
def sampleShower : Shower where
  current_time := 10
  current_position := ⟨0, 0, 0⟩
  current_velocity := ⟨0, 0, -1⟩
  start_time := 10
  start_position := ⟨0, 0, 0⟩

/-- An emission model with a counter as generator state: three fluorescence
photons of which all are captured, two Cherenkov photons, the stop always hit
at the origin, every ground reflection and every lens impact successful. -/
def sampleEmission : Emission ℕ where
  NewRay := fun time position direction => ⟨time, position, direction⟩
  NumberFluorescencePhotons := fun _ => 3
  FluorescenceFractionCaptured := fun _ => 1
  RandomStopImpact := fun g => (⟨0, 0, 0⟩, g + 1)
  NumberCherenkovPhotons := fun _ => 2
  GenerateCherenkovPhoton := fun shower g => (shower.toRay, g + 1)
  PropagateToPlane := fun ray _ => ray
  ReflectFromGround := fun ray g => ((true, ray), g + 1)
  LensImpactPoint := fun _ => (true, ⟨0, 0, 0⟩)

/-- The collaborators of `FindRMSVsAngle` for a telescope without state: the
shower is its position, a view records the x and z coordinates of the
shower, a step moves the shower along x, and light has speed 1. -/
def sampleAnalysis : TAnalysis.Parts Unit TVector3 where
  fLightSpeed := 1
  NewShower := fun _ position _ _ => position
  ViewPoint := fun telescope shower data => (telescope, ⟨data.points ++ [(shower.x, shower.z)]⟩)
  IncrementPosition := fun shower time => ⟨shower.x + time, shower.y, shower.z⟩
  GetPosition := fun shower => shower

/-- A stand-in for the number parser: the value of a field is the number of
its characters, and the empty field is rejected. -/
def sampleStod : List Char → Except String ℝ := fun s =>
  if s = [] then .error "no conversion" else .ok (s.length : ℝ)

/-- The members of `TRay` for a ray that is the pair of its position and its
direction and a plane that is the pair of its normal and a point; the
reflection and the propagation leave the ray where it is. -/
def sampleRayParts : TTelescope.RayParts (TVector3 × TVector3) (TVector3 × TVector3) where
  NewPlane := fun normal point => (normal, point)
  NewRay := fun position direction => (position, direction)
  ReflectFromPlane := fun ray _ => ray
  PropagateToPlane := fun ray _ => ray
  GetPosition := fun ray => ray.1

/-- An observatory with azimuth and elevation both a quarter turn and the
centre of curvature at (1, 2, 3). -/
def quarterTurns : TCoordinates := ⟨Real.pi / 2, Real.pi / 2, ⟨1, 2, 3⟩⟩

/-- A generator whose first draw is 1/8 and whose later draws are 1/32. -/
def cornerDraws : TRandom3 := ⟨fun n => if n = 0 then 1 / 8 else 1 / 32, 0⟩

/-- A run of `SimulateShower` with a step of 2 and a shower that is 5 away
from the ground in time; no noise is added and the voltage response is the
cube itself. -/
def sampleRun : Simulator.ShowerRun (List (TVector3 × ℝ)) ℕ (List (TVector3 × ℝ)) where
  time_delay := 2
  ground_plane := ⟨⟨0, 0, 1⟩, 0⟩
  TimeToPlane := fun _ _ => 5
  emptyCount := []
  AddNoise := fun st => st
  VoltageResponse := fun photon_count => photon_count

/-- The sample run with a step of 1 and a shower that is 3000000000 away
from the ground in time. -/
def farRun : Simulator.ShowerRun (List (TVector3 × ℝ)) ℕ (List (TVector3 × ℝ)) :=
  { sampleRun with time_delay := 1, TimeToPlane := fun _ _ => 3000000000 }

/-- The members of `TRay` for a shower that is the pair of its position and
its velocity and is 5 away from the ground in time. -/
def sampleShowerParts : TTelescope.ShowerParts (TVector3 × TVector3) (TVector3 × TVector3) where
  TimeToPlane := fun _ _ => 5
  IncrementPosition := fun ray time => (ray.1.add (ray.2.smul time), ray.2)

/-! ## Facts about the ROOT value classes -/

theorem TVector3.Mag2_nonneg (a : TVector3) : 0 ≤ a.Mag2 := by
  unfold TVector3.Mag2
  nlinarith [mul_self_nonneg a.x, mul_self_nonneg a.y, mul_self_nonneg a.z]

theorem TVector3.Mag_mul_self (a : TVector3) : a.Mag * a.Mag = a.Mag2 :=
  Real.mul_self_sqrt a.Mag2_nonneg

theorem TRotation.identity_apply (v : TVector3) : TRotation.identity.apply v = v := by
  ext <;> simp [TRotation.identity, TRotation.apply]

theorem TRotation.mul_identity (m : TRotation) : TRotation.mul m TRotation.identity = m := by
  ext <;> simp [TRotation.identity, TRotation.mul]

/-- An orthogonal matrix preserves scalar products. -/
theorem TRotation.IsOrthogonal.apply_Dot {r : TRotation} (h : r.IsOrthogonal)
    (v w : TVector3) : (r.apply v).Dot (r.apply w) = v.Dot w := by
  obtain ⟨h1, h2, h3, h4, h5, h6⟩ := h
  simp only [TRotation.apply, TVector3.Dot]
  linear_combination (v.x * w.x) * h1 + (v.y * w.y) * h2 + (v.z * w.z) * h3
    + (v.x * w.y + v.y * w.x) * h4 + (v.x * w.z + v.z * w.x) * h5
    + (v.y * w.z + v.z * w.y) * h6

/-- An orthogonal matrix preserves lengths. -/
theorem TRotation.IsOrthogonal.apply_Mag {r : TRotation} (h : r.IsOrthogonal)
    (v : TVector3) : (r.apply v).Mag = v.Mag := by
  have e : (r.apply v).Mag2 = v.Mag2 := h.apply_Dot v v
  simp only [TVector3.Mag, e]

/-- Turning a vector about an axis keeps its squared length. -/
theorem TVector3.Rotate_Mag2 (v axis : TVector3) (a : ℝ) :
    (v.Rotate a axis).Mag2 = v.Mag2 := by
  unfold TVector3.Rotate TRotation.Rotate
  by_cases ha : a ≠ 0
  · by_cases hl : axis.Mag = 0
    · simp [ha, hl, TRotation.identity_apply]
    · simp only [ne_eq, ha, hl, not_false_eq_true, if_true, if_false, TRotation.Transform,
        TRotation.mul_identity]
      have hD : (axis.x / axis.Mag) ^ 2 + (axis.y / axis.Mag) ^ 2 + (axis.z / axis.Mag) ^ 2 = 1 := by
        have := axis.Mag_mul_self
        unfold TVector3.Mag2 at this
        field_simp
        nlinarith
      have hS := Real.sin_sq_add_cos_sq a
      generalize axis.x / axis.Mag = dx at hD
      generalize axis.y / axis.Mag = dy at hD
      generalize axis.z / axis.Mag = dz at hD
      generalize Real.sin a = sa at hS
      generalize Real.cos a = ca at hS
      simp only [TRotation.apply, TVector3.Mag2]
      linear_combination
        ((1 - ca) ^ 2 * (dx * v.x + dy * v.y + dz * v.z) ^ 2
          + sa ^ 2 * (v.x * v.x + v.y * v.y + v.z * v.z)) * hD
        + (v.x * v.x + v.y * v.y + v.z * v.z - (dx * v.x + dy * v.y + dz * v.z) ^ 2) * hS
  · simp [ha, TRotation.identity_apply]

/-- Turning a vector about an axis keeps its scalar product with the axis. -/
theorem TVector3.Rotate_Dot_axis (v axis : TVector3) (a : ℝ) :
    (v.Rotate a axis).Dot axis = v.Dot axis := by
  unfold TVector3.Rotate TRotation.Rotate
  by_cases ha : a ≠ 0
  · by_cases hl : axis.Mag = 0
    · simp [ha, hl, TRotation.identity_apply]
    · simp only [ne_eq, ha, hl, not_false_eq_true, if_true, if_false, TRotation.Transform,
        TRotation.mul_identity]
      have hD : (axis.x / axis.Mag) ^ 2 + (axis.y / axis.Mag) ^ 2 + (axis.z / axis.Mag) ^ 2 = 1 := by
        have := axis.Mag_mul_self
        unfold TVector3.Mag2 at this
        field_simp
        nlinarith
      have hx : axis.x = axis.Mag * (axis.x / axis.Mag) := by field_simp
      have hy : axis.y = axis.Mag * (axis.y / axis.Mag) := by field_simp
      have hz : axis.z = axis.Mag * (axis.z / axis.Mag) := by field_simp
      generalize axis.x / axis.Mag = dx at hD hx
      generalize axis.y / axis.Mag = dy at hD hy
      generalize axis.z / axis.Mag = dz at hD hz
      generalize Real.sin a = sa
      generalize Real.cos a = ca
      simp only [TRotation.apply, TVector3.Dot]
      rw [hx, hy, hz]
      generalize axis.Mag = ll
      linear_combination
        ((1 - ca) * ll * (dx * v.x + dy * v.y + dz * v.z)) * hD
  · simp [ha, TRotation.identity_apply]

theorem TRotation.apply_zero (r : TRotation) : r.apply ⟨0, 0, 0⟩ = ⟨0, 0, 0⟩ := by
  ext <;> simp [TRotation.apply]

/-! ## Utility::RandNormal -/

/-- For a vector that does not lie on the x axis, `RandNormal` returns a
vector of length 1 perpendicular to it, whatever the generator draws. -/
theorem Utility.RandNormal_off_x_axis (vec : TVector3) (rng : TRandom3)
    (h : vec.y ≠ 0 ∨ vec.z ≠ 0) :
    (Utility.RandNormal vec rng).1.Mag = 1 ∧ (Utility.RandNormal vec rng).1.Dot vec = 0 := by
  have hne : ¬ (vec.x = 0 ∧ vec.y = 0 ∧ vec.z = 0) := by
    rintro ⟨_, hy, hz⟩
    rcases h with h | h
    · exact h hy
    · exact h hz
  have hpos : 0 < vec.z * vec.z + vec.y * vec.y := by
    rcases h with h | h
    · nlinarith [mul_self_pos.mpr h, mul_self_nonneg vec.z]
    · nlinarith [mul_self_pos.mpr h, mul_self_nonneg vec.y]
  have hcross : vec.Cross (vec.add ⟨1, 0, 0⟩) = ⟨0, vec.z, -vec.y⟩ := by
    ext <;> simp [TVector3.Cross, TVector3.add] <;> ring
  have hm2 : (⟨0, vec.z, -vec.y⟩ : TVector3).Mag2 = vec.z * vec.z + vec.y * vec.y := by
    simp [TVector3.Mag2]
  have hs : Real.sqrt (vec.z * vec.z + vec.y * vec.y) ≠ 0 :=
    (Real.sqrt_pos.mpr hpos).ne.symm
  have hss := Real.mul_self_sqrt hpos.le
  have hu : (⟨0, vec.z, -vec.y⟩ : TVector3).Unit
      = ⟨0, vec.z * (1 / Real.sqrt (vec.z * vec.z + vec.y * vec.y)),
          -vec.y * (1 / Real.sqrt (vec.z * vec.z + vec.y * vec.y))⟩ := by
    unfold TVector3.Unit
    rw [hm2]
    simp only [gt_iff_lt, if_pos hpos, zero_mul]
  simp only [Utility.RandNormal, if_neg hne, hcross, hu]
  constructor
  · rw [TVector3.Mag, TVector3.Rotate_Mag2]
    have : (⟨0, vec.z * (1 / Real.sqrt (vec.z * vec.z + vec.y * vec.y)),
          -vec.y * (1 / Real.sqrt (vec.z * vec.z + vec.y * vec.y))⟩ : TVector3).Mag2 = 1 := by
      simp only [TVector3.Mag2]
      field_simp
    rw [this, Real.sqrt_one]
  · rw [TVector3.Rotate_Dot_axis]
    simp only [TVector3.Dot]
    ring

theorem Utility.RandNormal_off_x_axis_witness :
    (Utility.RandNormal ⟨0, 1, 0⟩ ⟨fun _ => 0, 0⟩).1.Mag = 1
      ∧ (Utility.RandNormal ⟨0, 1, 0⟩ ⟨fun _ => 0, 0⟩).1.Dot ⟨0, 1, 0⟩ = 0 :=
  Utility.RandNormal_off_x_axis ⟨0, 1, 0⟩ ⟨fun _ => 0, 0⟩ (Or.inl one_ne_zero)

/-- C1, at the input the code mishandles: for the non-zero vector (1, 0, 0)
the cross product with (2, 0, 0) vanishes, `Unit` leaves it at zero and the
rotation keeps it there, so `RandNormal` returns the zero vector, whose
length is 0 and not 1, for every state of the generator. -/
theorem Utility.RandNormal_on_x_axis (rng : TRandom3) :
    (Utility.RandNormal ⟨1, 0, 0⟩ rng).1 = ⟨0, 0, 0⟩
      ∧ (Utility.RandNormal ⟨1, 0, 0⟩ rng).1.Mag ≠ 1 := by
  have hcross : (⟨1, 0, 0⟩ : TVector3).Cross (TVector3.add ⟨1, 0, 0⟩ ⟨1, 0, 0⟩) = ⟨0, 0, 0⟩ := by
    ext <;> simp [TVector3.Cross, TVector3.add]
  have hunit : (⟨0, 0, 0⟩ : TVector3).Unit = ⟨0, 0, 0⟩ := by
    ext <;> simp [TVector3.Unit]
  have hval : (Utility.RandNormal ⟨1, 0, 0⟩ rng).1 = ⟨0, 0, 0⟩ := by
    simp only [Utility.RandNormal, hcross, hunit, TVector3.Rotate, TRotation.apply_zero]
    simp
  refine ⟨hval, ?_⟩
  rw [hval]
  simp [TVector3.Mag, TVector3.Mag2]

/-- C2: for the zero vector `RandNormal` returns the axis (1, 0, 0) and
leaves the generator as it was, whatever the state of the generator. -/
theorem Utility.RandNormal_zero (rng : TRandom3) :
    Utility.RandNormal ⟨0, 0, 0⟩ rng = (⟨1, 0, 0⟩, rng) := by
  simp [Utility.RandNormal]

/-! ## Utility::MakeRotation -/

/-- The entries of `MakeRotation(e)`: the matrix of the rotation about the
x axis by the angle `e - pi/2`. -/
theorem Utility.MakeRotation_entries (e : ℝ) :
    Utility.MakeRotation e
      = ⟨1, 0, 0,
         0, Real.cos (e - Real.pi / 2), -Real.sin (e - Real.pi / 2),
         0, Real.sin (e - Real.pi / 2), Real.cos (e - Real.pi / 2)⟩ := by
  have h : -(Real.pi / 2) + e = e - Real.pi / 2 := by ring
  ext <;> simp [Utility.MakeRotation, TRotation.RotateX, TRotation.identity, h]

theorem Utility.MakeRotation_isRotation (e : ℝ) : (Utility.MakeRotation e).IsRotation := by
  rw [Utility.MakeRotation_entries]
  have hS := Real.sin_sq_add_cos_sq (e - Real.pi / 2)
  refine ⟨⟨?_, ?_, ?_, ?_, ?_, ?_⟩, ?_⟩ <;> simp only [TRotation.det] <;> nlinarith

/-- C9: for every elevation angle `e`, `MakeRotation(e)` is the rotation
about the x axis by `e - pi/2`: it has the matrix of that rotation, is a
proper rotation, fixes (1,0,0), preserves all dot products and lengths, maps
the detector axis (0,0,1) to (0, cos e, sin e), and is the identity for
`e = pi/2`. -/
theorem Utility.MakeRotation_spec (e : ℝ) :
    Utility.MakeRotation e
        = ⟨1, 0, 0,
           0, Real.cos (e - Real.pi / 2), -Real.sin (e - Real.pi / 2),
           0, Real.sin (e - Real.pi / 2), Real.cos (e - Real.pi / 2)⟩
      ∧ (Utility.MakeRotation e).IsRotation
      ∧ (Utility.MakeRotation e).apply ⟨1, 0, 0⟩ = ⟨1, 0, 0⟩
      ∧ (∀ v w : TVector3,
          ((Utility.MakeRotation e).apply v).Dot ((Utility.MakeRotation e).apply w) = v.Dot w)
      ∧ (∀ v : TVector3, ((Utility.MakeRotation e).apply v).Mag = v.Mag)
      ∧ (Utility.MakeRotation e).apply ⟨0, 0, 1⟩ = ⟨0, Real.cos e, Real.sin e⟩
      ∧ Utility.MakeRotation (Real.pi / 2) = TRotation.identity := by
  have hrot := Utility.MakeRotation_isRotation e
  refine ⟨Utility.MakeRotation_entries e, hrot, ?_, hrot.1.apply_Dot, hrot.1.apply_Mag, ?_, ?_⟩
  · rw [Utility.MakeRotation_entries]
    ext <;> simp [TRotation.apply]
  · rw [Utility.MakeRotation_entries]
    ext <;> simp [TRotation.apply, Real.sin_sub_pi_div_two, Real.cos_sub_pi_div_two]
  · rw [Utility.MakeRotation_entries]
    ext <;> simp [TRotation.identity]

/-! ## Utility::RandLinear -/

/-- C10: for `max > 0` and a uniform draw `u` in [0,1), the next value of the
generator, `RandLinear` returns `r = max * sqrt u` with `0 <= r < max`, and
for every `t >= 0`, so for every `t` with `0 <= t <= max`, the event `r <= t`
is the event `u <= (t/max)^2`: the radius has the cumulative distribution
`(t/max)^2` of a density linear in the radius. -/
theorem Utility.RandLinear_spec (rng : TRandom3) (max t : ℝ) (hmax : 0 < max)
    (hu0 : 0 ≤ rng.Rndm.1) (hu1 : rng.Rndm.1 < 1) (ht0 : 0 ≤ t) :
    (Utility.RandLinear rng max).1 = max * Real.sqrt rng.Rndm.1
      ∧ 0 ≤ (Utility.RandLinear rng max).1
      ∧ (Utility.RandLinear rng max).1 < max
      ∧ ((Utility.RandLinear rng max).1 ≤ t ↔ rng.Rndm.1 ≤ (t / max) ^ 2) := by
  have hval : (Utility.RandLinear rng max).1 = max * Real.sqrt rng.Rndm.1 := by
    simp [Utility.RandLinear, TRandom3.Uniform]
  have hs0 : 0 ≤ Real.sqrt rng.Rndm.1 := Real.sqrt_nonneg _
  have hs1 : Real.sqrt rng.Rndm.1 < 1 := by
    rw [← Real.sqrt_one]
    exact Real.sqrt_lt_sqrt hu0 hu1
  have htm : 0 ≤ t / max := div_nonneg ht0 hmax.le
  refine ⟨hval, ?_, ?_, ?_⟩
  · rw [hval]
    exact mul_nonneg hmax.le hs0
  · rw [hval]
    nlinarith
  · rw [hval, mul_comm, ← le_div_iff₀ hmax, Real.sqrt_le_left htm]

theorem Utility.RandLinear_spec_witness :
    (Utility.RandLinear ⟨fun _ => 1 / 4, 0⟩ 2).1
        = 2 * Real.sqrt (TRandom3.Rndm ⟨fun _ => 1 / 4, 0⟩).1
      ∧ 0 ≤ (Utility.RandLinear ⟨fun _ => 1 / 4, 0⟩ 2).1
      ∧ (Utility.RandLinear ⟨fun _ => 1 / 4, 0⟩ 2).1 < 2
      ∧ ((Utility.RandLinear ⟨fun _ => 1 / 4, 0⟩ 2).1 ≤ 1
          ↔ (TRandom3.Rndm ⟨fun _ => 1 / 4, 0⟩).1 ≤ (1 / 2) ^ 2) :=
  Utility.RandLinear_spec ⟨fun _ => 1 / 4, 0⟩ 2 1 (by norm_num)
    (by simp [TRandom3.Rndm]) (by norm_num [TRandom3.Rndm]) (by norm_num)

/-! ## Simulator::FitSDPlane: the choice of the eigenvalue index -/

/-- Invariant of the search loop of `FitSDPlane`: entered at index `i` with a
candidate `min_index <= i` whose value `min_val` is a lower bound of all
entries before `i` and strictly below all entries before `min_index`, the
loop ends at the least index of a minimal entry. -/
theorem Simulator.minIndexLoop_spec (e : List ℝ) :
    ∀ (rest : List ℝ) (i : ℕ) (min_val : ℝ) (min_index : ℕ),
      e.drop i = rest → min_index < e.length → min_index ≤ i →
      e.getD min_index 0 = min_val →
      (∀ k, k < i → min_val ≤ e.getD k 0) →
      (∀ k, k < min_index → min_val < e.getD k 0) →
      Simulator.minIndexLoop rest i min_val min_index < e.length
        ∧ (∀ k, k < e.length →
            e.getD (Simulator.minIndexLoop rest i min_val min_index) 0 ≤ e.getD k 0)
        ∧ (∀ k, k < Simulator.minIndexLoop rest i min_val min_index →
            e.getD (Simulator.minIndexLoop rest i min_val min_index) 0 < e.getD k 0) := by
  intro rest
  induction rest with
  | nil =>
    intro i min_val min_index hdrop hlt _ hval hall hbefore
    have hlen : e.length ≤ i := List.drop_eq_nil_iff.mp hdrop
    simp only [Simulator.minIndexLoop]
    refine ⟨hlt, fun k hk => ?_, fun k hk => ?_⟩
    · rw [hval]
      exact hall k (lt_of_lt_of_le hk hlen)
    · rw [hval]
      exact hbefore k hk
  | cons v rest ih =>
    intro i min_val min_index hdrop hlt hle hval hall hbefore
    have hi : i < e.length := by
      by_contra hcon
      rw [List.drop_eq_nil_iff.mpr (not_lt.mp hcon)] at hdrop
      exact List.noConfusion hdrop
    have hcons := List.drop_eq_getElem_cons hi
    rw [hdrop] at hcons
    have hv : e.getD i 0 = v := by
      rw [List.getD_eq_getElem e 0 hi]
      exact (List.cons.inj hcons).1.symm
    have hrest : e.drop (i + 1) = rest := (List.cons.inj hcons).2.symm
    simp only [Simulator.minIndexLoop]
    split_ifs with hcmp
    · refine ih (i + 1) v i hrest hi (Nat.le_succ i) hv (fun k hk => ?_) (fun k hk => ?_)
      · rcases Nat.lt_succ_iff_lt_or_eq.mp hk with h | h
        · exact le_trans hcmp.le (hall k h)
        · rw [h, hv]
      · exact lt_of_lt_of_le hcmp (hall k hk)
    · refine ih (i + 1) min_val min_index hrest hlt (Nat.le_succ_of_le hle) hval
        (fun k hk => ?_) hbefore
      rcases Nat.lt_succ_iff_lt_or_eq.mp hk with h | h
      · exact hall k h
      · rw [h, hv]
        exact not_lt.mp hcmp

/-- On a non-empty vector of eigenvalues the search of `FitSDPlane` returns
an index: a valid one, of a minimal entry, with only strictly larger entries
before it. -/
theorem Simulator.minIndex_least (e : List ℝ) (h : e ≠ []) :
    ∃ m, Simulator.minIndex e = some m ∧ m < e.length
      ∧ (∀ k, k < e.length → e.getD m 0 ≤ e.getD k 0)
      ∧ (∀ k, k < m → e.getD m 0 < e.getD k 0) := by
  cases e with
  | nil => exact absurd rfl h
  | cons v0 rest =>
    refine ⟨Simulator.minIndexLoop (v0 :: rest) 0 v0 0, rfl, ?_⟩
    exact Simulator.minIndexLoop_spec (v0 :: rest) (v0 :: rest) 0 v0 0 rfl
      (Nat.succ_pos _) (le_refl 0) rfl (fun k hk => absurd hk (Nat.not_lt_zero k))
      (fun k hk => absurd hk (Nat.not_lt_zero k))

/-- C4: for every non-empty list of eigenvalues `e`, the index chosen by
`FitSDPlane` exists, lies inside the list, satisfies
`e[min_index] <= e[i]` for all `i`, and `e[i] > e[min_index]` for every
`i < min_index`: it is the least index of the minimum. -/
theorem Simulator.minIndex_spec (e : List ℝ) (h : e ≠ []) :
    ∃ min_index, Simulator.minIndex e = some min_index ∧ min_index < e.length
      ∧ (∀ i, i < e.length → e.getD min_index 0 ≤ e.getD i 0)
      ∧ (∀ i, i < min_index → e.getD i 0 > e.getD min_index 0) := by
  obtain ⟨m, hm, hlt, hmin, hbefore⟩ := Simulator.minIndex_least e h
  exact ⟨m, hm, hlt, hmin, fun i hi => hbefore i hi⟩

theorem Simulator.minIndex_spec_witness :
    ∃ min_index, Simulator.minIndex [2, 1, 3, 1] = some min_index
      ∧ min_index < [(2 : ℝ), 1, 3, 1].length
      ∧ (∀ i, i < [(2 : ℝ), 1, 3, 1].length
          → [(2 : ℝ), 1, 3, 1].getD min_index 0 ≤ [(2 : ℝ), 1, 3, 1].getD i 0)
      ∧ (∀ i, i < min_index
          → [(2 : ℝ), 1, 3, 1].getD i 0 > [(2 : ℝ), 1, 3, 1].getD min_index 0) :=
  Simulator.minIndex_spec [2, 1, 3, 1] (List.cons_ne_nil _ _)

/-- The search on the eigenvalues 2, 1, 3, 1: the minimum 1 occurs at the
indices 1 and 3, and the smaller index is chosen. -/
theorem Simulator.minIndex_tie : Simulator.minIndex [2, 1, 3, 1] = some 1 := by
  simp only [Simulator.minIndex, Simulator.minIndexLoop]
  norm_num

/-! ## Simulator::FitSDPlane: the matrix -/

/-- A left fold that adds one term per element is the sum of the terms. -/
theorem foldl_add_eq_sum {α : Type} (f : α → ℝ) (l : List α) (a : ℝ) :
    l.foldl (fun acc p => acc + f p) a = a + (l.map f).sum := by
  induction l generalizing a with
  | nil => simp
  | cons p l ih => simp [ih, add_assoc]

/-- The entry `(j, k)` of the matrix of `FitSDPlane` as a sum over the
iterated pixels. -/
theorem Simulator.sdpMatrix_apply {PhotonCount : Type} (sim : Reconstruction)
    (acc : CubeAccess PhotonCount) (data : PhotonCount) (j k : Fin 3) :
    Simulator.sdpMatrix sim acc data j k
      = ((acc.Iterate data).map (fun p =>
          (sim.CameraIndexToViewDirection p.1 p.2).get j
            * (sim.CameraIndexToViewDirection p.1 p.2).get k * (acc.SumBins data p : ℝ))).sum := by
  simp only [Simulator.sdpMatrix, Matrix.of_apply, Simulator.matElement]
  rw [foldl_add_eq_sum
    (fun p => (sim.CameraIndexToViewDirection p.1 p.2).get j
      * (sim.CameraIndexToViewDirection p.1 p.2).get k * (acc.SumBins data p : ℝ))]
  simp

/-- The quadratic form of a sum of weighted squares `w * d dᵀ` is the sum of
the weighted squares `w * (x . d)^2`. -/
theorem quadratic_form_sum {α : Type} (d : α → TVector3) (w : α → ℝ) (x : Fin 3 → ℝ)
    (l : List α) :
    ∑ j : Fin 3, ∑ k : Fin 3, x j * (l.map (fun p => (d p).get j * (d p).get k * w p)).sum * x k
      = (l.map (fun p => w p * (x 0 * (d p).x + x 1 * (d p).y + x 2 * (d p).z) ^ 2)).sum := by
  induction l with
  | nil => simp
  | cons p l ih =>
    simp only [Fin.sum_univ_three, List.map_cons, List.sum_cons] at ih ⊢
    rw [← ih]
    simp only [TVector3.get]
    ring

/-- C5: for every cube whose per-pixel sums `SumBins` are non-negative, the
matrix `M` built by `FitSDPlane` has the entries
`M[j][k] = sum over the iterated pixels of d[j]*d[k]*SumBins(pixel)`, is
symmetric (`M[j][k] = M[k][j]`) and positive semidefinite
(`x^T M x >= 0` for every vector `x`). -/
theorem Simulator.sdpMatrix_symm_posSemidef {PhotonCount : Type} (sim : Reconstruction)
    (acc : CubeAccess PhotonCount) (data : PhotonCount)
    (hpos : ∀ p ∈ acc.Iterate data, 0 ≤ acc.SumBins data p) :
    (∀ j k : Fin 3, Simulator.sdpMatrix sim acc data j k
        = ((acc.Iterate data).map (fun p =>
            (sim.CameraIndexToViewDirection p.1 p.2).get j
              * (sim.CameraIndexToViewDirection p.1 p.2).get k
              * (acc.SumBins data p : ℝ))).sum)
      ∧ (∀ j k : Fin 3,
          Simulator.sdpMatrix sim acc data j k = Simulator.sdpMatrix sim acc data k j)
      ∧ (∀ x : Fin 3 → ℝ,
          0 ≤ ∑ j : Fin 3, ∑ k : Fin 3, x j * Simulator.sdpMatrix sim acc data j k * x k) := by
  refine ⟨Simulator.sdpMatrix_apply sim acc data, fun j k => ?_, fun x => ?_⟩
  · rw [Simulator.sdpMatrix_apply, Simulator.sdpMatrix_apply]
    congr 2
    funext p
    ring
  · simp only [Simulator.sdpMatrix_apply]
    rw [quadratic_form_sum (fun p => sim.CameraIndexToViewDirection p.1 p.2)
      (fun p => (acc.SumBins data p : ℝ)) x (acc.Iterate data)]
    apply List.sum_nonneg
    intro t ht
    obtain ⟨p, hp, rfl⟩ := List.mem_map.mp ht
    exact mul_nonneg (by exact_mod_cast hpos p hp) (sq_nonneg _)

theorem Simulator.sdpMatrix_symm_posSemidef_witness :
    (∀ j k : Fin 3, Simulator.sdpMatrix twoPixelSim twoPixelAccess twoPixelData j k
        = ((twoPixelAccess.Iterate twoPixelData).map (fun p =>
            (twoPixelSim.CameraIndexToViewDirection p.1 p.2).get j
              * (twoPixelSim.CameraIndexToViewDirection p.1 p.2).get k
              * (twoPixelAccess.SumBins twoPixelData p : ℝ))).sum)
      ∧ (∀ j k : Fin 3,
          Simulator.sdpMatrix twoPixelSim twoPixelAccess twoPixelData j k
            = Simulator.sdpMatrix twoPixelSim twoPixelAccess twoPixelData k j)
      ∧ (∀ x : Fin 3 → ℝ,
          0 ≤ ∑ j : Fin 3, ∑ k : Fin 3,
            x j * Simulator.sdpMatrix twoPixelSim twoPixelAccess twoPixelData j k * x k) :=
  Simulator.sdpMatrix_symm_posSemidef twoPixelSim twoPixelAccess twoPixelData (by
    intro p _
    simp only [twoPixelAccess, twoPixelData]
    split_ifs <;> norm_num)

/-! ## Simulator::FitSDPlane: the extracted vector -/

/-- Under the contract of the eigen-solver every COLUMN of the eigenvector
matrix is an eigenvector of `M` for the eigenvalue of the same index. -/
theorem TMatrixDSymEigen.column_eigenvector (r : TMatrixDSymEigen)
    (M : Matrix (Fin 3) (Fin 3) ℝ) (h : r.IsDecompositionOf M) (i : Fin 3) :
    M.mulVec (fun j => r.GetEigenVectors j i)
      = r.GetEigenValues.getD i.val 0 • (fun j => r.GetEigenVectors j i) := by
  obtain ⟨_, _, hMV⟩ := h
  funext j
  have := congrFun (congrFun hMV j) i
  simp only [Matrix.mul_apply, Matrix.diagonal_apply, mul_ite, mul_zero,
    Finset.sum_ite_eq', Finset.mem_univ, if_true] at this
  simp only [Matrix.mulVec, Matrix.dotProduct, Pi.smul_apply, smul_eq_mul]
  rw [this]
  ring

/-- Under the contract of the eigen-solver the vector that `FitSDPlane` reads
from the eigenvector matrix exists and has squared length 1: the rows of an
orthogonal matrix are unit vectors as well. -/
theorem Simulator.extractResult_unit (r : TMatrixDSymEigen) (M : Matrix (Fin 3) (Fin 3) ℝ)
    (h : r.IsDecompositionOf M) :
    ∃ n, Simulator.extractResult r = some n ∧ n.Mag2 = 1 := by
  obtain ⟨hlen, horth, _⟩ := h
  have hne : r.GetEigenValues ≠ [] := by
    intro hnil
    rw [hnil] at hlen
    exact absurd hlen (by decide)
  obtain ⟨m, hm, hlt, _, _⟩ := Simulator.minIndex_least r.GetEigenValues hne
  rw [hlen] at hlt
  refine ⟨⟨r.GetEigenVectors ⟨m, hlt⟩ 0, r.GetEigenVectors ⟨m, hlt⟩ 1,
    r.GetEigenVectors ⟨m, hlt⟩ 2⟩, ?_, ?_⟩
  · simp only [Simulator.extractResult, hm, dif_pos hlt]
  · have hrow : r.GetEigenVectors * r.GetEigenVectors.transpose = 1 :=
      Matrix.mul_eq_one_comm.mp horth
    have := congrFun (congrFun hrow ⟨m, hlt⟩) ⟨m, hlt⟩
    simp only [Matrix.mul_apply, Matrix.transpose_apply, Fin.sum_univ_three,
      Matrix.one_apply_eq] at this
    simpa only [TVector3.Mag2] using this

/-- C6: for every cube, when the eigen-solver keeps its contract (an
orthogonal eigenvector matrix for the three eigenvalues) and
`rotate_to_world` is a rotation, `FitSDPlane` returns a vector and its length
is exactly 1. -/
theorem Simulator.FitSDPlane_unit {PhotonCount : Type} (sim : Reconstruction)
    (acc : CubeAccess PhotonCount) (data : PhotonCount)
    (hsolver : (sim.eigen (Simulator.sdpMatrix sim acc data)).IsDecompositionOf
      (Simulator.sdpMatrix sim acc data))
    (hrot : sim.rotate_to_world.IsRotation) :
    ∃ normal, Simulator.FitSDPlane sim acc data = some normal ∧ normal.Mag = 1 := by
  obtain ⟨n, hn, hmag⟩ := Simulator.extractResult_unit _ _ hsolver
  refine ⟨sim.rotate_to_world.apply n, ?_, ?_⟩
  · simp only [Simulator.FitSDPlane, hn]
  · rw [hrot.1.apply_Mag, TVector3.Mag, hmag, Real.sqrt_one]

/-- The matrix of a cube without pixels is zero. -/
theorem Simulator.sdpMatrix_dark : Simulator.sdpMatrix darkSim darkAccess () = 0 := by
  ext j k
  simp [Simulator.sdpMatrix_apply, darkAccess]

theorem TRotation.identity_isRotation : TRotation.identity.IsRotation := by
  refine ⟨⟨?_, ?_, ?_, ?_, ?_, ?_⟩, ?_⟩ <;> simp [TRotation.identity, TRotation.det]

theorem Simulator.FitSDPlane_unit_witness :
    ∃ normal, Simulator.FitSDPlane darkSim darkAccess () = some normal ∧ normal.Mag = 1 :=
  Simulator.FitSDPlane_unit darkSim darkAccess ()
    (by
      rw [Simulator.sdpMatrix_dark]
      refine ⟨rfl, ?_, ?_⟩
      · simp [darkSim]
      · ext j k
        fin_cases j <;> fin_cases k <;> simp [darkSim, Matrix.one_apply, Matrix.diagonal_apply])
    TRotation.identity_isRotation

/-- The matrix of the two-pixel sample. -/
theorem Simulator.sdpMatrix_twoPixel :
    Simulator.sdpMatrix twoPixelSim twoPixelAccess twoPixelData
      = !![0, 0, 0; 0, 34 / 25, 12 / 25; 0, 12 / 25, 41 / 25] := by
  ext j k
  rw [Simulator.sdpMatrix_apply]
  fin_cases j <;> fin_cases k <;>
    simp [twoPixelSim, twoPixelAccess, twoPixelData, TVector3.get, Matrix.vecHead,
      Matrix.vecTail] <;> norm_num

/-- C3, at an input the code mishandles. For the two-pixel sample both
view directions lie in the plane `x = 0`; the eigen-solver keeps its contract
(eigenvectors in the columns) and the least eigenvalue, 0, has index 2 with
the eigenvector (1, 0, 0) in column 2. `FitSDPlane` reads ROW 2 of the
eigenvector matrix, the vector (4/5, 3/5, 0), which is no eigenvector of the
matrix for any eigenvalue, in particular not for the least one. -/
theorem Simulator.FitSDPlane_reads_row :
    (twoPixelSim.eigen (Simulator.sdpMatrix twoPixelSim twoPixelAccess twoPixelData)).IsDecompositionOf
        (Simulator.sdpMatrix twoPixelSim twoPixelAccess twoPixelData)
      ∧ Simulator.minIndex
          (twoPixelSim.eigen
            (Simulator.sdpMatrix twoPixelSim twoPixelAccess twoPixelData)).GetEigenValues = some 2
      ∧ Simulator.extractResult
          (twoPixelSim.eigen (Simulator.sdpMatrix twoPixelSim twoPixelAccess twoPixelData))
          = some ⟨4 / 5, 3 / 5, 0⟩
      ∧ Simulator.FitSDPlane twoPixelSim twoPixelAccess twoPixelData = some ⟨4 / 5, 3 / 5, 0⟩
      ∧ (∀ lam : ℝ,
          (Simulator.sdpMatrix twoPixelSim twoPixelAccess twoPixelData).mulVec ![4 / 5, 3 / 5, 0]
            ≠ lam • ![4 / 5, 3 / 5, 0])
      ∧ (Simulator.sdpMatrix twoPixelSim twoPixelAccess twoPixelData).mulVec ![1, 0, 0]
          = (0 : ℝ) • ![1, 0, 0] := by
  have hidx : Simulator.minIndex [2, 1, 0] = some 2 := by
    simp only [Simulator.minIndex, Simulator.minIndexLoop]
    norm_num
  have hres : Simulator.extractResult
      (twoPixelSim.eigen (Simulator.sdpMatrix twoPixelSim twoPixelAccess twoPixelData))
      = some ⟨4 / 5, 3 / 5, 0⟩ := by
    simp only [Simulator.extractResult, twoPixelSim, hidx]
    simp [Matrix.vecHead, Matrix.vecTail]
  refine ⟨⟨rfl, ?_, ?_⟩, hidx, hres, ?_, ?_, ?_⟩
  · ext j k
    fin_cases j <;> fin_cases k <;>
      simp [twoPixelSim, Matrix.mul_apply, Fin.sum_univ_three, Matrix.one_apply,
        Matrix.transpose_apply, Matrix.vecHead, Matrix.vecTail] <;> norm_num
  · rw [Simulator.sdpMatrix_twoPixel]
    ext j k
    fin_cases j <;> fin_cases k <;>
      simp [twoPixelSim, Matrix.mul_apply, Fin.sum_univ_three, Matrix.diagonal_apply,
        Matrix.vecHead, Matrix.vecTail] <;>
      norm_num
  · simp only [Simulator.FitSDPlane, hres]
    simp [twoPixelSim, TRotation.identity_apply]
  · intro lam hcon
    rw [Simulator.sdpMatrix_twoPixel] at hcon
    have h0 := congrFun hcon 0
    have h1 := congrFun hcon 1
    simp [Matrix.mulVec, Matrix.dotProduct, Fin.sum_univ_three, Matrix.vecHead,
      Matrix.vecTail] at h0 h1
    rw [h0] at h1
    norm_num at h1
  · rw [Simulator.sdpMatrix_twoPixel]
    funext j
    fin_cases j <;>
      simp [Matrix.mulVec, Matrix.dotProduct, Fin.sum_univ_three, Matrix.vecHead, Matrix.vecTail]

/-! ## Simulator::SimulateOptics -/

/-- C7: for every photon and every cube, `SimulateOptics` returns the cube
unchanged when `MirrorImpactPoint` fails, when the camera blocks the path to
the mirror, or when `CameraImpactPoint` fails; otherwise the result is the
cube after exactly one `AddPoint`, for the view direction of the camera
impact point and the time of the photon after it has been propagated to the
mirror point, reflected there, and propagated to the camera impact point.
All stages see the photon as the corrector lens left it. -/
theorem Simulator.SimulateOptics_cases {PhotonCount : Type} (o : Optics PhotonCount)
    (photon : Ray) (photon_count : PhotonCount) :
    ((o.MirrorImpactPoint (o.DeflectFromLens photon).2).1 = false
        → Simulator.SimulateOptics o photon photon_count = photon_count)
      ∧ (o.BlockedByCamera (o.DeflectFromLens photon).2.GetPosition
            (o.MirrorImpactPoint (o.DeflectFromLens photon).2).2 = true
        → Simulator.SimulateOptics o photon photon_count = photon_count)
      ∧ ((o.CameraImpactPoint
            (o.Reflect
              (o.PropagateToPoint (o.DeflectFromLens photon).2
                (o.MirrorImpactPoint (o.DeflectFromLens photon).2).2)
              (o.MirrorNormal (o.MirrorImpactPoint (o.DeflectFromLens photon).2).2))).1 = false
        → Simulator.SimulateOptics o photon photon_count = photon_count)
      ∧ ((o.MirrorImpactPoint (o.DeflectFromLens photon).2).1 = true
          ∧ o.BlockedByCamera (o.DeflectFromLens photon).2.GetPosition
              (o.MirrorImpactPoint (o.DeflectFromLens photon).2).2 = false
          ∧ (o.CameraImpactPoint
              (o.Reflect
                (o.PropagateToPoint (o.DeflectFromLens photon).2
                  (o.MirrorImpactPoint (o.DeflectFromLens photon).2).2)
                (o.MirrorNormal (o.MirrorImpactPoint (o.DeflectFromLens photon).2).2))).1 = true
        → Simulator.SimulateOptics o photon photon_count
            = o.AddPoint photon_count
                (o.GetViewDirection
                  (o.CameraImpactPoint
                    (o.Reflect
                      (o.PropagateToPoint (o.DeflectFromLens photon).2
                        (o.MirrorImpactPoint (o.DeflectFromLens photon).2).2)
                      (o.MirrorNormal (o.MirrorImpactPoint (o.DeflectFromLens photon).2).2))).2)
                (o.PropagateToPoint
                  (o.Reflect
                    (o.PropagateToPoint (o.DeflectFromLens photon).2
                      (o.MirrorImpactPoint (o.DeflectFromLens photon).2).2)
                    (o.MirrorNormal (o.MirrorImpactPoint (o.DeflectFromLens photon).2).2))
                  (o.CameraImpactPoint
                    (o.Reflect
                      (o.PropagateToPoint (o.DeflectFromLens photon).2
                        (o.MirrorImpactPoint (o.DeflectFromLens photon).2).2)
                      (o.MirrorNormal
                        (o.MirrorImpactPoint (o.DeflectFromLens photon).2).2))).2).GetTime) := by
  refine ⟨fun h => ?_, fun h => ?_, fun h => ?_, fun h => ?_⟩
  · simp [Simulator.SimulateOptics, h]
  · simp [Simulator.SimulateOptics, h]
  · simp [Simulator.SimulateOptics, h]
  · simp [Simulator.SimulateOptics, h.1, h.2.1, h.2.2]

/-- C8, at an input the code mishandles: on the bench whose corrector lens
reports failure for every photon, `SimulateOptics` still deposits the photon:
the empty cube comes back with one entry. The value that `DeflectFromLens`
returns is never looked at. -/
theorem Simulator.SimulateOptics_ignores_lens :
    (lensFailOptics.DeflectFromLens platePhoton).1 = false
      ∧ Simulator.SimulateOptics lensFailOptics platePhoton [] = [(⟨0, 0, 0⟩, 7)]
      ∧ Simulator.SimulateOptics lensFailOptics platePhoton [] ≠ [] := by
  have h : Simulator.SimulateOptics lensFailOptics platePhoton [] = [(⟨0, 0, 0⟩, 7)] := by
    simp [Simulator.SimulateOptics, lensFailOptics, platePhoton, Ray.GetTime]
  refine ⟨rfl, h, ?_⟩
  rw [h]
  exact List.cons_ne_nil _ _

/-! ## PhotonCount::AddPhoton -/

/-- Raising a bin raises the sum of the time series by the weight. -/
theorem PhotonCount.incrementBin_sum (series : List ℕ) (bin weight : ℕ) :
    (PhotonCount.incrementBin series bin weight).sum = series.sum + weight := by
  induction series generalizing bin with
  | nil =>
    induction bin with
    | zero => simp [PhotonCount.incrementBin]
    | succ b ih => simpa [PhotonCount.incrementBin] using ih
  | cons count rest ih =>
    cases bin with
    | zero => simp [PhotonCount.incrementBin]; ring
    | succ b => simp [PhotonCount.incrementBin, ih b]; ring

/-- Raising a bin lowers no count of the time series. -/
theorem PhotonCount.incrementBin_getD_le (series : List ℕ) (bin weight i : ℕ) :
    series.getD i 0 ≤ (PhotonCount.incrementBin series bin weight).getD i 0 := by
  induction series generalizing bin i with
  | nil => simp
  | cons count rest ih =>
    cases bin with
    | zero =>
      cases i with
      | zero => simp [PhotonCount.incrementBin]
      | succ j => simp [PhotonCount.incrementBin]
    | succ b =>
      cases i with
      | zero => simp [PhotonCount.incrementBin]
      | succ j => simpa [PhotonCount.incrementBin] using ih b j

/-- The selected bin is raised by exactly the weight. -/
theorem PhotonCount.incrementBin_getD_self (series : List ℕ) (bin weight : ℕ) :
    (PhotonCount.incrementBin series bin weight).getD bin 0 = series.getD bin 0 + weight := by
  induction series generalizing bin with
  | nil =>
    induction bin with
    | zero => simp [PhotonCount.incrementBin]
    | succ b ih => simpa [PhotonCount.incrementBin] using ih
  | cons count rest ih =>
    cases bin with
    | zero => simp [PhotonCount.incrementBin]
    | succ b => simpa [PhotonCount.incrementBin] using ih b

/-- A pixel of the disk has both indices between 0 and `n_pmt_across`. -/
theorem PhotonCount.ValidPixel.mem_validPixels {c : PhotonCount} {p : ℤ × ℤ}
    (h : c.ValidPixel p.1 p.2) : p ∈ c.validPixels := by
  unfold PhotonCount.ValidPixel at h
  have hx : ((p.1 : ℚ) - (c.n_pmt_across : ℚ) / 2) ^ 2 ≤ ((c.n_pmt_across : ℚ) / 2) ^ 2 := by
    nlinarith [sq_nonneg ((p.2 : ℚ) - (c.n_pmt_across : ℚ) / 2)]
  have hy : ((p.2 : ℚ) - (c.n_pmt_across : ℚ) / 2) ^ 2 ≤ ((c.n_pmt_across : ℚ) / 2) ^ 2 := by
    nlinarith [sq_nonneg ((p.1 : ℚ) - (c.n_pmt_across : ℚ) / 2)]
  have hN : (0 : ℚ) ≤ (c.n_pmt_across : ℚ) / 2 := by positivity
  have hx' := abs_le_of_sq_le_sq' hx hN
  have hy' := abs_le_of_sq_le_sq' hy hN
  have h1 : (0 : ℚ) ≤ (p.1 : ℚ) := by linarith [hx'.1]
  have h2 : (p.1 : ℚ) ≤ (c.n_pmt_across : ℚ) := by linarith [hx'.2]
  have h3 : (0 : ℚ) ≤ (p.2 : ℚ) := by linarith [hy'.1]
  have h4 : (p.2 : ℚ) ≤ (c.n_pmt_across : ℚ) := by linarith [hy'.2]
  simp only [PhotonCount.validPixels, Finset.mem_filter, Finset.mem_product, Finset.mem_Icc]
  refine ⟨⟨⟨?_, ?_⟩, ⟨?_, ?_⟩⟩, h⟩
  · exact_mod_cast h1
  · exact_mod_cast h2
  · exact_mod_cast h3
  · exact_mod_cast h4

/-- C11: for every cube and every `AddPhoton` call, no bin of any pixel has a
lower count after the call than before; when the arrival is in range (the
direction maps into the valid pixel disk and the time is not before
`start_time`) the total count of the cube rises by exactly the deposited
weight; and when the time is before `start_time` or the direction maps
outside the disk the cube is left unchanged. -/
theorem PhotonCount.AddPhoton_spec (DirectionToPixel : TVector3 → ℤ × ℤ) (c : PhotonCount)
    (time : ℝ) (direction : TVector3) (weight : ℕ) :
    (∀ (pixel : ℤ × ℤ) (bin : ℕ),
        c.binCount pixel bin
          ≤ (PhotonCount.AddPhoton DirectionToPixel c time direction weight).binCount pixel bin)
      ∧ (c.ValidPixel (DirectionToPixel direction).1 (DirectionToPixel direction).2
          ∧ c.start_time ≤ time →
        (PhotonCount.AddPhoton DirectionToPixel c time direction weight).totalCount
          = c.totalCount + weight)
      ∧ (time < c.start_time
          ∨ ¬ c.ValidPixel (DirectionToPixel direction).1 (DirectionToPixel direction).2 →
        PhotonCount.AddPhoton DirectionToPixel c time direction weight = c) := by
  refine ⟨fun pixel bin => ?_, fun h => ?_, fun h => ?_⟩
  · by_cases hdrop : ¬ c.ValidPixel (DirectionToPixel direction).1 (DirectionToPixel direction).2
        ∨ time < c.start_time
    · simp only [PhotonCount.AddPhoton, if_pos hdrop]
      exact le_refl _
    · simp only [PhotonCount.AddPhoton, if_neg hdrop, PhotonCount.binCount]
      by_cases hp : pixel = DirectionToPixel direction
      · rw [hp, Function.update_same]
        exact PhotonCount.incrementBin_getD_le _ _ _ _
      · rw [Function.update_noteq hp]
  · obtain ⟨hvalid, htime⟩ := h
    have hkeep : ¬ (¬ c.ValidPixel (DirectionToPixel direction).1 (DirectionToPixel direction).2
        ∨ time < c.start_time) := by
      rintro (h1 | h2)
      · exact h1 hvalid
      · exact absurd htime (not_le.mpr h2)
    have hmem := hvalid.mem_validPixels
    simp only [PhotonCount.AddPhoton, if_neg hkeep, PhotonCount.totalCount]
    have hsame : PhotonCount.validPixels
        { c with
          photon_counts :=
            Function.update c.photon_counts (DirectionToPixel direction)
              (PhotonCount.incrementBin (c.photon_counts (DirectionToPixel direction))
                (c.TimeBin time).toNat weight) } = c.validPixels := rfl
    rw [hsame, ← Finset.add_sum_erase _ _ hmem, ← Finset.add_sum_erase c.validPixels _ hmem]
    have hrest : ∀ p ∈ c.validPixels.erase (DirectionToPixel direction),
        PhotonCount.SumBins
          { c with
            photon_counts :=
              Function.update c.photon_counts (DirectionToPixel direction)
                (PhotonCount.incrementBin (c.photon_counts (DirectionToPixel direction))
                  (c.TimeBin time).toNat weight) } p = c.SumBins p := by
      intro p hp
      simp only [PhotonCount.SumBins]
      rw [Function.update_noteq (Finset.ne_of_mem_erase hp)]
    rw [Finset.sum_congr rfl hrest]
    simp only [PhotonCount.SumBins, Function.update_same, PhotonCount.incrementBin_sum]
    ring
  · have hdrop : ¬ c.ValidPixel (DirectionToPixel direction).1 (DirectionToPixel direction).2
        ∨ time < c.start_time := by
      rcases h with h | h
      · exact Or.inr h
      · exact Or.inl h
    simp only [PhotonCount.AddPhoton, if_pos hdrop]

/-- An arrival in range on the small cube: a photon of weight 3 at time 4.5
for pixel (2, 2) grows the series 5, 0, 2 to 5, 0, 2, 0, 3. -/
theorem PhotonCount.AddPhoton_smallCube :
    (PhotonCount.AddPhoton (fun _ => (2, 2)) smallCube (9 / 2) ⟨0, 0, -1⟩ 3).photon_counts (2, 2)
      = [5, 0, 2, 0, 3] := by
  have hbin : (smallCube.TimeBin (9 / 2)).toNat = 4 := by
    have : smallCube.TimeBin (9 / 2) = 4 := by
      simp only [PhotonCount.TimeBin, smallCube]
      rw [Int.floor_eq_iff]
      norm_num
    rw [this]
    rfl
  have hkeep : ¬ (¬ smallCube.ValidPixel 2 2 ∨ (9 / 2 : ℝ) < smallCube.start_time) := by
    rintro (h1 | h2)
    · exact h1 (by simp only [PhotonCount.ValidPixel, smallCube]; norm_num)
    · simp only [smallCube] at h2
      norm_num at h2
  simp only [PhotonCount.AddPhoton, if_neg hkeep, hbin, Function.update_same]
  simp [smallCube, PhotonCount.incrementBin]

/-! ## Ray::Reflect -/

/-- A vector with a non-zero coordinate has a positive squared length. -/
theorem TVector3.Mag2_pos {n : TVector3} (h : ¬ (n.x = 0 ∧ n.y = 0 ∧ n.z = 0)) : 0 < n.Mag2 := by
  unfold TVector3.Mag2
  by_contra hcon
  have hx := mul_self_nonneg n.x
  have hy := mul_self_nonneg n.y
  have hz := mul_self_nonneg n.z
  apply h
  refine ⟨?_, ?_, ?_⟩ <;> apply mul_self_eq_zero.mp <;> linarith

/-- The unit vector of a vector of positive length has squared length one. -/
theorem TVector3.Unit_Mag2 {n : TVector3} (h : 0 < n.Mag2) : n.Unit.Mag2 = 1 := by
  have hs : Real.sqrt n.Mag2 ≠ 0 := (Real.sqrt_pos.mpr h).ne.symm
  have hss := Real.mul_self_sqrt h.le
  have hu : n.Unit = ⟨n.x * (1 / Real.sqrt n.Mag2), n.y * (1 / Real.sqrt n.Mag2),
      n.z * (1 / Real.sqrt n.Mag2)⟩ := by
    unfold TVector3.Unit
    simp only [gt_iff_lt, if_pos h]
  have key : n.Mag2 * ((1 / Real.sqrt n.Mag2) * (1 / Real.sqrt n.Mag2)) = 1 := by
    rw [div_mul_div_comm, one_mul, hss]
    field_simp
  rw [hu]
  generalize 1 / Real.sqrt n.Mag2 = k at key
  simp only [TVector3.Mag2] at key ⊢
  linear_combination key

/-- C12: for every ray and every non-zero normal `n`, `Reflect(n)` replaces
the velocity `v` by `v - 2 (v . u) u` with `u` the unit vector of `n`, and
leaves the speed unchanged: `|v_after| = |v_before|`. -/
theorem Ray.Reflect_speed (r : Ray) (n : TVector3) (hn : ¬ (n.x = 0 ∧ n.y = 0 ∧ n.z = 0)) :
    (r.Reflect n).current_velocity
        = r.current_velocity.sub
            ⟨2 * r.current_velocity.Dot n.Unit * n.Unit.x,
             2 * r.current_velocity.Dot n.Unit * n.Unit.y,
             2 * r.current_velocity.Dot n.Unit * n.Unit.z⟩
      ∧ n.Unit = ⟨n.x * (1 / n.Mag), n.y * (1 / n.Mag), n.z * (1 / n.Mag)⟩
      ∧ (r.Reflect n).current_velocity.Mag = r.current_velocity.Mag := by
  have hpos := TVector3.Mag2_pos hn
  have hu := TVector3.Unit_Mag2 hpos
  refine ⟨rfl, ?_, ?_⟩
  · unfold TVector3.Unit TVector3.Mag
    simp only [gt_iff_lt, if_pos hpos]
  · have h2 : (r.Reflect n).current_velocity.Mag2 = r.current_velocity.Mag2 := by
      simp only [Ray.Reflect, TVector3.sub, TVector3.Dot, TVector3.Mag2] at hu ⊢
      generalize n.Unit = u at hu
      linear_combination
        (4 * (r.current_velocity.x * u.x + r.current_velocity.y * u.y
          + r.current_velocity.z * u.z) ^ 2) * hu
    simp only [TVector3.Mag, h2]

theorem Ray.Reflect_speed_witness :
    (Ray.Reflect ⟨0, ⟨0, 0, 0⟩, ⟨3, 0, -4⟩⟩ ⟨0, 0, 2⟩).current_velocity
        = (⟨3, 0, -4⟩ : TVector3).sub
            ⟨2 * (⟨3, 0, -4⟩ : TVector3).Dot (⟨0, 0, 2⟩ : TVector3).Unit
                * (⟨0, 0, 2⟩ : TVector3).Unit.x,
             2 * (⟨3, 0, -4⟩ : TVector3).Dot (⟨0, 0, 2⟩ : TVector3).Unit
                * (⟨0, 0, 2⟩ : TVector3).Unit.y,
             2 * (⟨3, 0, -4⟩ : TVector3).Dot (⟨0, 0, 2⟩ : TVector3).Unit
                * (⟨0, 0, 2⟩ : TVector3).Unit.z⟩
      ∧ (⟨0, 0, 2⟩ : TVector3).Unit
          = ⟨0 * (1 / (⟨0, 0, 2⟩ : TVector3).Mag), 0 * (1 / (⟨0, 0, 2⟩ : TVector3).Mag),
              2 * (1 / (⟨0, 0, 2⟩ : TVector3).Mag)⟩
      ∧ (Ray.Reflect ⟨0, ⟨0, 0, 0⟩, ⟨3, 0, -4⟩⟩ ⟨0, 0, 2⟩).current_velocity.Mag
          = (⟨3, 0, -4⟩ : TVector3).Mag :=
  Ray.Reflect_speed ⟨0, ⟨0, 0, 0⟩, ⟨3, 0, -4⟩⟩ ⟨0, 0, 2⟩ (by norm_num)

/-! ## TAnalysis::FindRMSDeviation -/

theorem TAnalysis.SumArray_eq_sum (array : List ℝ) : TAnalysis.SumArray array = array.sum := by
  unfold TAnalysis.SumArray
  rw [foldl_add_eq_sum (fun d => d)]
  simp

/-- A loop over the indices of a list that adds one term per element is the
sum of the terms over the list. -/
theorem foldl_range_getD_eq_sum {α : Type} (g : α → ℝ) (l : List α) (d : α) :
    (List.range l.length).foldl (fun acc i => acc + g (l.getD i d)) 0 = (l.map g).sum := by
  rw [foldl_add_eq_sum (fun i => g (l.getD i d)), zero_add]
  congr 1
  apply List.ext_getElem
  · simp
  · intro i h1 h2
    simp only [List.length_map, List.length_range] at h1
    simp [List.getElem?_eq_getElem h1]

/-- The value of `FindRMSDeviation` in closed form: the square root of the
mean squared distance of the points from their mean point. -/
theorem TAnalysis.FindRMSDeviation_eq (data : TDataCollection) :
    TAnalysis.FindRMSDeviation data
      = Real.sqrt
          ((data.points.map (fun p =>
              (p.1 - (data.points.map Prod.fst).sum / (data.points.length : ℝ)) ^ 2
                + (p.2 - (data.points.map Prod.snd).sum / (data.points.length : ℝ)) ^ 2)).sum
            / (data.points.length : ℝ)) := by
  unfold TAnalysis.FindRMSDeviation
  simp only [TAnalysis.SumArray_eq_sum, TDataCollection.Size, TDataCollection.GetXData,
    TDataCollection.GetYData, TDataCollection.GetX, TDataCollection.GetY]
  rw [foldl_range_getD_eq_sum
    (fun p : ℝ × ℝ =>
      (p.1 - (data.points.map Prod.fst).sum / (data.points.length : ℝ))
          * (p.1 - (data.points.map Prod.fst).sum / (data.points.length : ℝ))
        + (p.2 - (data.points.map Prod.snd).sum / (data.points.length : ℝ))
          * (p.2 - (data.points.map Prod.snd).sum / (data.points.length : ℝ)))
    data.points (0, 0)]
  congr 3
  apply List.map_congr_left
  intro p _
  ring

/-- A sum of non-negative terms is non-negative. -/
theorem list_sum_map_nonneg {α : Type} (g : α → ℝ) (hg : ∀ a, 0 ≤ g a) (l : List α) :
    0 ≤ (l.map g).sum := by
  apply List.sum_nonneg
  intro t ht
  obtain ⟨a, _, rfl⟩ := List.mem_map.mp ht
  exact hg a

/-- A sum of non-negative terms vanishes exactly when every term does. -/
theorem list_sum_map_eq_zero_iff {α : Type} (g : α → ℝ) (hg : ∀ a, 0 ≤ g a) (l : List α) :
    (l.map g).sum = 0 ↔ ∀ a ∈ l, g a = 0 := by
  induction l with
  | nil => simp
  | cons a l ih =>
    have h1 := hg a
    have h2 := list_sum_map_nonneg g hg l
    simp only [List.map_cons, List.sum_cons, List.mem_cons, forall_eq_or_imp]
    constructor
    · intro h
      have ha : g a = 0 := by linarith
      exact ⟨ha, ih.mp (by linarith)⟩
    · rintro ⟨ha, hl⟩
      rw [ha, ih.mpr hl, add_zero]

/-- The sum of a function over a list whose elements all equal `q`. -/
theorem list_sum_map_of_all_eq {α : Type} (g : α → ℝ) (q : α) (l : List α)
    (h : ∀ a ∈ l, a = q) : (l.map g).sum = (l.length : ℝ) * g q := by
  induction l with
  | nil => simp
  | cons a l ih =>
    have ha : a = q := h a (List.mem_cons_self a l)
    have hl : ∀ b ∈ l, b = q := fun b hb => h b (List.mem_cons_of_mem a hb)
    simp only [List.map_cons, List.sum_cons, List.length_cons, Nat.cast_add, Nat.cast_one,
      ih hl, ha]
    ring

/-- The sum of a translated coordinate. -/
theorem list_sum_map_add_const {α : Type} (g : α → ℝ) (k : ℝ) (l : List α) :
    (l.map (fun a => g a + k)).sum = (l.map g).sum + (l.length : ℝ) * k := by
  induction l with
  | nil => simp
  | cons a l ih =>
    simp only [List.map_cons, List.sum_cons, List.length_cons, Nat.cast_add, Nat.cast_one, ih]
    ring

/-- C14: for every non-empty data collection of `n` points `(x_i, y_i)`,
`FindRMSDeviation` returns
`sqrt((1/n) * sum_i ((x_i - xbar)^2 + (y_i - ybar)^2))` with `xbar`, `ybar`
the arithmetic means; the result is non-negative, is 0 exactly when all
points coincide, and is unchanged when every point is translated by the same
offset `(dx, dy)`. -/
theorem TAnalysis.FindRMSDeviation_spec (data : TDataCollection) (hne : data.points ≠ [])
    (dx dy : ℝ) :
    TAnalysis.FindRMSDeviation data
        = Real.sqrt
            (1 / (data.points.length : ℝ)
              * (data.points.map (fun p =>
                  (p.1 - (data.points.map Prod.fst).sum / (data.points.length : ℝ)) ^ 2
                    + (p.2 - (data.points.map Prod.snd).sum / (data.points.length : ℝ)) ^ 2)).sum)
      ∧ 0 ≤ TAnalysis.FindRMSDeviation data
      ∧ (TAnalysis.FindRMSDeviation data = 0 ↔ ∀ p ∈ data.points, ∀ q ∈ data.points, p = q)
      ∧ TAnalysis.FindRMSDeviation ⟨data.points.map (fun p => (p.1 + dx, p.2 + dy))⟩
          = TAnalysis.FindRMSDeviation data := by
  have hlen : 0 < data.points.length := List.length_pos.mpr hne
  have hn : (0 : ℝ) < (data.points.length : ℝ) := by exact_mod_cast hlen
  have hterm : ∀ (a b : ℝ) (p : ℝ × ℝ), 0 ≤ (p.1 - a) ^ 2 + (p.2 - b) ^ 2 :=
    fun a b p => add_nonneg (sq_nonneg _) (sq_nonneg _)
  refine ⟨?_, Real.sqrt_nonneg _, ?_, ?_⟩
  · rw [TAnalysis.FindRMSDeviation_eq]
    congr 1
    ring
  · rw [TAnalysis.FindRMSDeviation_eq, Real.sqrt_eq_zero', div_le_iff₀ hn, zero_mul]
    have hS := list_sum_map_nonneg _
      (hterm ((data.points.map Prod.fst).sum / (data.points.length : ℝ))
        ((data.points.map Prod.snd).sum / (data.points.length : ℝ))) data.points
    have hzero := list_sum_map_eq_zero_iff _
      (hterm ((data.points.map Prod.fst).sum / (data.points.length : ℝ))
        ((data.points.map Prod.snd).sum / (data.points.length : ℝ))) data.points
    constructor
    · intro hle p hp q hq
      have hall := hzero.mp (le_antisymm hle hS)
      have hp' := hall p hp
      have hq' := hall q hq
      have e1 : p.1 - (data.points.map Prod.fst).sum / (data.points.length : ℝ) = 0 := by
        have := sq_nonneg (p.2 - (data.points.map Prod.snd).sum / (data.points.length : ℝ))
        have h0 := sq_nonneg (p.1 - (data.points.map Prod.fst).sum / (data.points.length : ℝ))
        exact pow_eq_zero_iff (two_ne_zero) |>.mp (by linarith)
      have e2 : p.2 - (data.points.map Prod.snd).sum / (data.points.length : ℝ) = 0 := by
        have := sq_nonneg (p.1 - (data.points.map Prod.fst).sum / (data.points.length : ℝ))
        have h0 := sq_nonneg (p.2 - (data.points.map Prod.snd).sum / (data.points.length : ℝ))
        exact pow_eq_zero_iff (two_ne_zero) |>.mp (by linarith)
      have e3 : q.1 - (data.points.map Prod.fst).sum / (data.points.length : ℝ) = 0 := by
        have := sq_nonneg (q.2 - (data.points.map Prod.snd).sum / (data.points.length : ℝ))
        have h0 := sq_nonneg (q.1 - (data.points.map Prod.fst).sum / (data.points.length : ℝ))
        exact pow_eq_zero_iff (two_ne_zero) |>.mp (by linarith)
      have e4 : q.2 - (data.points.map Prod.snd).sum / (data.points.length : ℝ) = 0 := by
        have := sq_nonneg (q.1 - (data.points.map Prod.fst).sum / (data.points.length : ℝ))
        have h0 := sq_nonneg (q.2 - (data.points.map Prod.snd).sum / (data.points.length : ℝ))
        exact pow_eq_zero_iff (two_ne_zero) |>.mp (by linarith)
      exact Prod.ext (by linarith) (by linarith)
    · intro hall
      obtain ⟨q, hq⟩ := List.exists_mem_of_ne_nil _ hne
      have hsame : ∀ a ∈ data.points, a = q := fun a ha => hall a ha q hq
      have hx : (data.points.map Prod.fst).sum / (data.points.length : ℝ) = q.1 := by
        rw [list_sum_map_of_all_eq Prod.fst q data.points hsame]
        field_simp
      have hy : (data.points.map Prod.snd).sum / (data.points.length : ℝ) = q.2 := by
        rw [list_sum_map_of_all_eq Prod.snd q data.points hsame]
        field_simp
      apply le_of_eq
      rw [hzero]
      intro a ha
      rw [hx, hy, hsame a ha]
      ring
  · rw [TAnalysis.FindRMSDeviation_eq, TAnalysis.FindRMSDeviation_eq]
    simp only [List.map_map, List.length_map]
    have hx : (data.points.map (Prod.fst ∘ fun p : ℝ × ℝ => (p.1 + dx, p.2 + dy))).sum
          / (data.points.length : ℝ)
        = (data.points.map Prod.fst).sum / (data.points.length : ℝ) + dx := by
      have := list_sum_map_add_const Prod.fst dx data.points
      simp only [Function.comp_def]
      rw [this]
      field_simp
      ring
    have hy : (data.points.map (Prod.snd ∘ fun p : ℝ × ℝ => (p.1 + dx, p.2 + dy))).sum
          / (data.points.length : ℝ)
        = (data.points.map Prod.snd).sum / (data.points.length : ℝ) + dy := by
      have := list_sum_map_add_const Prod.snd dy data.points
      simp only [Function.comp_def]
      rw [this]
      field_simp
      ring
    rw [hx, hy]
    congr 3
    apply List.map_congr_left
    intro p _
    simp only [Function.comp_def]
    ring

theorem TAnalysis.FindRMSDeviation_spec_witness :
    TAnalysis.FindRMSDeviation ⟨[(0, 0), (2, 0)]⟩
        = Real.sqrt
            (1 / (([(0, 0), (2, 0)] : List (ℝ × ℝ)).length : ℝ)
              * (([(0, 0), (2, 0)] : List (ℝ × ℝ)).map (fun p =>
                  (p.1 - (([(0, 0), (2, 0)] : List (ℝ × ℝ)).map Prod.fst).sum
                      / (([(0, 0), (2, 0)] : List (ℝ × ℝ)).length : ℝ)) ^ 2
                    + (p.2 - (([(0, 0), (2, 0)] : List (ℝ × ℝ)).map Prod.snd).sum
                      / (([(0, 0), (2, 0)] : List (ℝ × ℝ)).length : ℝ)) ^ 2)).sum)
      ∧ 0 ≤ TAnalysis.FindRMSDeviation ⟨[(0, 0), (2, 0)]⟩
      ∧ (TAnalysis.FindRMSDeviation ⟨[(0, 0), (2, 0)]⟩ = 0
          ↔ ∀ p ∈ ([(0, 0), (2, 0)] : List (ℝ × ℝ)),
              ∀ q ∈ ([(0, 0), (2, 0)] : List (ℝ × ℝ)), p = q)
      ∧ TAnalysis.FindRMSDeviation
            ⟨([(0, 0), (2, 0)] : List (ℝ × ℝ)).map (fun p => (p.1 + 5, p.2 + 7))⟩
          = TAnalysis.FindRMSDeviation ⟨[(0, 0), (2, 0)]⟩ :=
  TAnalysis.FindRMSDeviation_spec ⟨[(0, 0), (2, 0)]⟩ (List.cons_ne_nil _ _) 5 7

/-- The RMS deviation of the two points (0, 0) and (2, 0) is 1. -/
theorem TAnalysis.FindRMSDeviation_two_points :
    TAnalysis.FindRMSDeviation ⟨[(0, 0), (2, 0)]⟩ = 1 := by
  rw [TAnalysis.FindRMSDeviation_eq]
  norm_num

/-! ## TAnalysis::FindRMSVsAngle -/

/-- Conversion to an integer of a non-negative number is the floor. -/
theorem castToInt_of_nonneg {x : ℝ} (h : 0 ≤ x) : castToInt x = ⌊x⌋ := by
  simp [castToInt, h]

/-- A result that fits the 32-bit `int` is kept by `int` arithmetic. -/
theorem wrapInt32_of_fits {n : ℤ} (h1 : INT_MIN ≤ n) (h2 : n ≤ INT_MAX) : wrapInt32 n = n := by
  unfold wrapInt32
  unfold INT_MIN at h1
  unfold INT_MAX at h2
  omega

/-- Conversion to the 32-bit `int` of a non-negative number whose floor fits
the type is the floor. -/
theorem castToInt32_of_fits {x : ℝ} (h : 0 ≤ x) (hfit : ⌊x⌋ ≤ INT_MAX) :
    castToInt32 x = ⌊x⌋ := by
  have h0 : INT_MIN ≤ ⌊x⌋ := by
    have := Int.floor_nonneg.mpr h
    unfold INT_MIN
    omega
  simp only [castToInt32, castToInt_of_nonneg h]
  rw [if_pos ⟨h0, hfit⟩]

/-- Conversion to the 32-bit `int` of a number of at least 2^31 is out of
range and gives `INT_MIN`. -/
theorem castToInt32_of_large {x : ℝ} (h : 2147483648 ≤ x) : castToInt32 x = INT_MIN := by
  have h0 : (0 : ℝ) ≤ x := le_trans (by norm_num) h
  have hfloor : (2147483648 : ℤ) ≤ ⌊x⌋ := Int.le_floor.mpr (by exact_mod_cast h)
  simp only [castToInt32, castToInt_of_nonneg h0]
  rw [if_neg]
  rintro ⟨_, h2⟩
  unfold INT_MAX at h2
  omega

/-- The loop of `FindRMSVsAngle` pushes one entry to each output vector in
every round. -/
theorem TAnalysis.collect_length {TTelescope TShower : Type}
    (P : TAnalysis.Parts TTelescope TShower) (timeDelay : ℝ) (k : ℕ) :
    ∀ (telescope : TTelescope) (shower : TShower) (data : TDataCollection) (RMS angle : List ℝ),
      (TAnalysis.collect P timeDelay k telescope shower data RMS angle).1.length = RMS.length + k
        ∧ (TAnalysis.collect P timeDelay k telescope shower data RMS angle).2.length
            = angle.length + k := by
  induction k with
  | zero =>
    intro telescope shower data RMS angle
    simp [TAnalysis.collect]
  | succ k ih =>
    intro telescope shower data RMS angle
    simp only [TAnalysis.collect]
    obtain ⟨h1, h2⟩ := ih (P.ViewPoint telescope shower data).1
      (P.IncrementPosition shower timeDelay) (P.ViewPoint telescope shower data).2
      (RMS ++ [TAnalysis.FindRMSDeviation (P.ViewPoint telescope shower data).2])
      (angle ++ [(P.GetPosition (P.IncrementPosition shower timeDelay)).Theta])
    rw [h1, h2]
    simp only [List.length_append, List.length_singleton]
    omega

/-- The check of the bounds fails exactly for equal bounds. -/
theorem TAnalysis.checkAngles_error_iff (minAngle maxAngle : ℝ) :
    (∃ message, TAnalysis.checkAngles minAngle maxAngle = .error message)
      ↔ minAngle = maxAngle := by
  unfold TAnalysis.checkAngles
  constructor
  · rintro ⟨message, h⟩
    split_ifs at h with h1 h2
    exact h2
  · intro h
    have h1 : ¬ minAngle > maxAngle := by rw [h]; exact lt_irrefl _
    exact ⟨_, by rw [if_neg h1, if_pos h]⟩

/-- Bounds in descending order are swapped. -/
theorem TAnalysis.checkAngles_of_gt {minAngle maxAngle : ℝ} (h : minAngle > maxAngle) :
    TAnalysis.checkAngles minAngle maxAngle = .ok (maxAngle, minAngle) := by
  simp [TAnalysis.checkAngles, h]

/-- Bounds in ascending order are kept. -/
theorem TAnalysis.checkAngles_of_lt {minAngle maxAngle : ℝ} (h : minAngle < maxAngle) :
    TAnalysis.checkAngles minAngle maxAngle = .ok (minAngle, maxAngle) := by
  have h1 : ¬ minAngle > maxAngle := not_lt.mpr h.le
  have h2 : ¬ minAngle = maxAngle := h.ne
  simp only [TAnalysis.checkAngles, if_neg h1, if_neg h2]

/-- C13: `FindRMSVsAngle` throws `invalid_argument` if and only if
`minAngle == maxAngle`; when `minAngle > maxAngle` it does not throw but
swaps the two bounds and proceeds, so that it leaves behind what the call
with the bounds in ascending order leaves behind. -/
theorem TAnalysis.FindRMSVsAngle_throws_iff {TTelescope TShower : Type}
    (P : TAnalysis.Parts TTelescope TShower) (RMS angle : List ℝ) (telescope : TTelescope)
    (sampleNumber : ℤ) (timeDelay minAngle maxAngle zDistance : ℝ) :
    ((∃ message,
        (TAnalysis.FindRMSVsAngle P RMS angle telescope sampleNumber timeDelay
          minAngle maxAngle zDistance).result = .error message) ↔ minAngle = maxAngle)
      ∧ (minAngle > maxAngle →
          TAnalysis.checkAngles minAngle maxAngle = .ok (maxAngle, minAngle)
            ∧ (TAnalysis.FindRMSVsAngle P RMS angle telescope sampleNumber timeDelay
                minAngle maxAngle zDistance).result = .ok ()
            ∧ TAnalysis.FindRMSVsAngle P RMS angle telescope sampleNumber timeDelay
                minAngle maxAngle zDistance
              = TAnalysis.FindRMSVsAngle P RMS angle telescope sampleNumber timeDelay
                maxAngle minAngle zDistance) := by
  constructor
  · rw [← TAnalysis.checkAngles_error_iff]
    unfold TAnalysis.FindRMSVsAngle
    cases hc : TAnalysis.checkAngles minAngle maxAngle with
    | error message => simp
    | ok bounds => simp
  · intro h
    have h1 := TAnalysis.checkAngles_of_gt h
    have h2 : TAnalysis.checkAngles maxAngle minAngle = .ok (maxAngle, minAngle) :=
      TAnalysis.checkAngles_of_lt h
    refine ⟨h1, ?_, ?_⟩
    · simp only [TAnalysis.FindRMSVsAngle, h1]
    · simp only [TAnalysis.FindRMSVsAngle, h1, h2]

/-- The step count of `FindRMSVsAngle` for ascending bounds inside
`(-pi/2, pi/2)`, positive distance, step and speed of light, when the count
fits the 32-bit `Int_t`. -/
theorem TAnalysis.nSteps_of_fits (fLightSpeed timeDelay a b zDistance : ℝ)
    (ha : -(Real.pi / 2) < a) (hab : a < b) (hb : b < Real.pi / 2)
    (hz : 0 < zDistance) (ht : 0 < timeDelay) (hc : 0 < fLightSpeed)
    (hfit : ⌊zDistance * (Real.tan b - Real.tan a) / (timeDelay * fLightSpeed)⌋ + 1 ≤ INT_MAX) :
    TAnalysis.nSteps fLightSpeed timeDelay a b zDistance
        = ⌊zDistance * (Real.tan b - Real.tan a) / (timeDelay * fLightSpeed)⌋ + 1
      ∧ 1 ≤ TAnalysis.nSteps fLightSpeed timeDelay a b zDistance := by
  have htan : Real.tan a < Real.tan b := Real.tan_lt_tan_of_lt_of_lt_pi_div_two ha hb hab
  have hquot : 0 ≤ zDistance * (Real.tan b - Real.tan a) / (timeDelay * fLightSpeed) :=
    div_nonneg (mul_nonneg hz.le (sub_nonneg.mpr htan.le)) (mul_pos ht hc).le
  have hfloor := Int.floor_nonneg.mpr hquot
  have e : (TAnalysis.endingHeight b zDistance - TAnalysis.startingHeight a zDistance)
      / (timeDelay * fLightSpeed)
      = zDistance * (Real.tan b - Real.tan a) / (timeDelay * fLightSpeed) := by
    simp only [TAnalysis.endingHeight, TAnalysis.startingHeight]
    ring
  have hsteps : TAnalysis.nSteps fLightSpeed timeDelay a b zDistance
      = ⌊zDistance * (Real.tan b - Real.tan a) / (timeDelay * fLightSpeed)⌋ + 1 := by
    simp only [TAnalysis.nSteps, e]
    rw [castToInt32_of_fits hquot (by omega)]
    exact wrapInt32_of_fits (by unfold INT_MIN; omega) hfit
  exact ⟨hsteps, by rw [hsteps]; omega⟩

/-- Whatever the positive speed of light `c` is, for the step `1 / c`, the
bounds 0 and pi/4 and the distance 3000000000 the quotient is 3000000000,
its conversion to `Int_t` is out of range, and `nSteps` is `INT_MIN + 1`. -/
theorem TAnalysis.nSteps_out_of_range (c : ℝ) (hc : 0 < c) :
    TAnalysis.nSteps c (1 / c) 0 (Real.pi / 4) 3000000000 = -2147483647 := by
  have e : (TAnalysis.endingHeight (Real.pi / 4) 3000000000
      - TAnalysis.startingHeight 0 3000000000) / (1 / c * c) = 3000000000 := by
    simp only [TAnalysis.endingHeight, TAnalysis.startingHeight, Real.tan_pi_div_four,
      Real.tan_zero]
    field_simp
  simp only [TAnalysis.nSteps, e]
  rw [castToInt32_of_large (by norm_num)]
  unfold wrapInt32 INT_MIN
  norm_num

/-- C19, as amended: for `-pi/2 < a < b < pi/2`, `zDistance > 0`,
`timeDelay > 0` (and a positive speed of light), when the step count
`floor(zDistance * (tan b - tan a) / (timeDelay * c)) + 1` fits the 32-bit
`Int_t` (it is at most 2147483647), the calls with the bounds `(a, b)` and
`(b, a)` both work with the bounds `(a, b)`: the same starting height
`zDistance * tan a` and the same step count, which is that floor plus 1 and
at least 1; they leave the same outcome behind whatever the output vectors
held before, they return, and both output vectors have exactly that
length. -/
theorem TAnalysis.FindRMSVsAngle_symmetric {TTelescope TShower : Type}
    (P : TAnalysis.Parts TTelescope TShower) (RMS angle RMS₂ angle₂ : List ℝ)
    (telescope : TTelescope) (sampleNumber : ℤ) (timeDelay a b zDistance : ℝ)
    (ha : -(Real.pi / 2) < a) (hab : a < b) (hb : b < Real.pi / 2)
    (hz : 0 < zDistance) (ht : 0 < timeDelay) (hc : 0 < P.fLightSpeed)
    (hfit : ⌊zDistance * (Real.tan b - Real.tan a) / (timeDelay * P.fLightSpeed)⌋ + 1
      ≤ INT_MAX) :
    TAnalysis.checkAngles a b = .ok (a, b)
      ∧ TAnalysis.checkAngles b a = .ok (a, b)
      ∧ TAnalysis.startingHeight a zDistance = zDistance * Real.tan a
      ∧ TAnalysis.nSteps P.fLightSpeed timeDelay a b zDistance
          = ⌊zDistance * (Real.tan b - Real.tan a) / (timeDelay * P.fLightSpeed)⌋ + 1
      ∧ 1 ≤ TAnalysis.nSteps P.fLightSpeed timeDelay a b zDistance
      ∧ TAnalysis.FindRMSVsAngle P RMS angle telescope sampleNumber timeDelay b a zDistance
          = TAnalysis.FindRMSVsAngle P RMS₂ angle₂ telescope sampleNumber timeDelay a b zDistance
      ∧ (TAnalysis.FindRMSVsAngle P RMS angle telescope sampleNumber timeDelay
          a b zDistance).result = .ok ()
      ∧ ((TAnalysis.FindRMSVsAngle P RMS angle telescope sampleNumber timeDelay
          a b zDistance).RMS.length : ℤ)
          = ⌊zDistance * (Real.tan b - Real.tan a) / (timeDelay * P.fLightSpeed)⌋ + 1
      ∧ ((TAnalysis.FindRMSVsAngle P RMS angle telescope sampleNumber timeDelay
          a b zDistance).angle.length : ℤ)
          = ⌊zDistance * (Real.tan b - Real.tan a) / (timeDelay * P.fLightSpeed)⌋ + 1 := by
  have h1 := TAnalysis.checkAngles_of_lt hab
  have h2 : TAnalysis.checkAngles b a = .ok (a, b) := TAnalysis.checkAngles_of_gt hab
  obtain ⟨hsteps, hone⟩ :=
    TAnalysis.nSteps_of_fits P.fLightSpeed timeDelay a b zDistance ha hab hb hz ht hc hfit
  have hlen := TAnalysis.collect_length P timeDelay
    (TAnalysis.nSteps P.fLightSpeed timeDelay a b zDistance).toNat telescope
    (P.NewShower 0 ⟨TAnalysis.startingHeight a zDistance, 0, zDistance⟩ ⟨1, 0, 0⟩ sampleNumber)
    ⟨[]⟩ [] []
  refine ⟨h1, h2, rfl, hsteps, hone, ?_, ?_, ?_, ?_⟩
  · simp only [TAnalysis.FindRMSVsAngle, h1, h2]
  · simp only [TAnalysis.FindRMSVsAngle, h1]
  · simp only [TAnalysis.FindRMSVsAngle, h1, hlen.1, List.length_nil, zero_add]
    rw [← hsteps]
    exact Int.toNat_of_nonneg (by omega)
  · simp only [TAnalysis.FindRMSVsAngle, h1, hlen.2, List.length_nil, zero_add]
    rw [← hsteps]
    exact Int.toNat_of_nonneg (by omega)

/-! ## The number of viewing steps -/

/-- The stepping loop with a view that writes down the time of the shower
writes down the times `t0 + i * time_delay` for `i = 0, .., k - 1`. -/
theorem Simulator.stepLoop_times (time_delay : ℝ) (k : ℕ) :
    ∀ (shower : Shower) (log : List ℝ),
      Simulator.stepLoop (fun shower log => log ++ [shower.GetTime]) time_delay k shower log
        = log ++ (List.range k).map (fun i : ℕ => shower.GetTime + (i : ℝ) * time_delay) := by
  induction k with
  | zero =>
    intro shower log
    simp [Simulator.stepLoop]
  | succ k ih =>
    intro shower log
    have htime : (shower.IncrementPosition time_delay).GetTime = shower.GetTime + time_delay := rfl
    simp only [Simulator.stepLoop, ih, htime, List.range_succ_eq_map, List.map_cons,
      List.map_map, List.append_assoc, List.singleton_append]
    congr 2
    · simp
    · apply List.map_congr_left
      intro i _
      simp only [Function.comp_apply, Nat.cast_succ]
      ring

/-- The stepping loop of `SimulateShower` applies the view to the shower
after 0, 1, .., `k - 1` steps, in this order. -/
theorem Simulator.stepLoop_eq_foldl {St : Type} (view : Shower → St → St) (time_delay : ℝ)
    (k : ℕ) :
    ∀ (shower : Shower) (st : St),
      Simulator.stepLoop view time_delay k shower st
        = (List.range k).foldl
            (fun st i => view (Simulator.showerAt shower time_delay i) st) st := by
  induction k with
  | zero =>
    intro shower st
    simp [Simulator.stepLoop]
  | succ k ih =>
    intro shower st
    simp only [Simulator.stepLoop, ih, List.range_succ_eq_map, List.foldl_cons, List.foldl_map]
    rfl

/-- The shower after `i` steps of `time_delay` is later by `i * time_delay`. -/
theorem Simulator.showerAt_GetTime (shower : Shower) (time_delay : ℝ) (i : ℕ) :
    (Simulator.showerAt shower time_delay i).GetTime = shower.GetTime + (i : ℝ) * time_delay := by
  induction i with
  | zero => simp [Simulator.showerAt]
  | succ i ih =>
    have hstep : Simulator.showerAt shower time_delay (i + 1)
        = (Simulator.showerAt shower time_delay i).IncrementPosition time_delay := by
      simp only [Simulator.showerAt, Function.iterate_succ_apply']
    have htime : ((Simulator.showerAt shower time_delay i).IncrementPosition time_delay).GetTime
        = (Simulator.showerAt shower time_delay i).GetTime + time_delay := rfl
    rw [hstep, htime, ih]
    push_cast
    ring

/-- The outer loop of `ViewShower` runs the detections for the shower after
0, 1, .., `k - 1` steps, in this order. -/
theorem TTelescope.viewLoop_eq_foldl {Pl TRay : Type} (R : TTelescope.RayParts Pl TRay)
    (S : TTelescope.ShowerParts Pl TRay) (t : TTelescope Pl) (timeDelay : ℝ) (sampleNumber : ℤ)
    (k : ℕ) :
    ∀ (shower : TRay) (st : TRandom3 × List (ℝ × ℝ)),
      TTelescope.viewLoop R S t timeDelay sampleNumber k shower st
        = (List.range k).foldl
            (fun st i =>
              TTelescope.sampleLoop R t (R.GetPosition (TTelescope.rayAt S shower timeDelay i))
                sampleNumber.toNat st) st := by
  induction k with
  | zero =>
    intro shower st
    simp [TTelescope.viewLoop]
  | succ k ih =>
    intro shower st
    simp only [TTelescope.viewLoop, ih, List.range_succ_eq_map, List.foldl_cons, List.foldl_map]
    rfl

/-- The two step counts for a time to the ground `T >= 0` and a step
`d > 0`, when `floor(T/d) + 2` fits the 32-bit `int`. -/
theorem Simulator.n_steps_of_fits (T d : ℝ) (hT : 0 ≤ T) (hd : 0 < d)
    (hfit : ⌊T / d⌋ + 2 ≤ INT_MAX) :
    Simulator.n_steps T d = ⌊T / d⌋ + 2 ∧ TTelescope.numberOfSteps T d = ⌊T / d⌋ + 2 := by
  have hq : 0 ≤ T / d := div_nonneg hT hd.le
  have hfloor : 0 ≤ ⌊T / d⌋ := Int.floor_nonneg.mpr hq
  constructor
  · simp only [Simulator.n_steps]
    rw [castToInt32_of_fits hq (by omega)]
    exact wrapInt32_of_fits (by unfold INT_MIN; omega) hfit
  · have h2 : 0 ≤ T / d + 2 := by linarith
    have e : T / d + 2 = T / d + ((2 : ℤ) : ℝ) := by norm_num
    have hf : ⌊T / d + 2⌋ = ⌊T / d⌋ + 2 := by rw [e, Int.floor_add_int]
    simp only [TTelescope.numberOfSteps]
    rw [castToInt32_of_fits h2 (by rw [hf]; exact hfit), hf]

/-- C15, as amended: for every time to the ground `T >= 0` and step `d > 0`
for which `floor(T/d) + 2` fits the 32-bit `int` (it is at most 2147483647),
the step counts of `Simulator::SimulateShower`, `(int)(T/d) + 2`, and of
`TTelescope::ViewShower`, `(int)(T/d + 2)`, are both `n = floor(T/d) + 2`,
with `(n-2)*d <= T < (n-1)*d`. `SimulateShower` views the shower (its
fluorescence and then its Cherenkov photons) `n` times, after 0, 1, ..,
`n-1` steps of `d`, that is at the times `i*d` after its start, and
`ViewShower` runs its detections for the shower after the same steps; every
view but the last is at or before the time `T` of reaching the ground plane
and the last one is strictly after it. -/
theorem Simulator.SimulateShower_steps {PhotonCount G VoltageSignal Pl TRay : Type}
    (o : Optics PhotonCount) (E : Emission G)
    (run : Simulator.ShowerRun PhotonCount G VoltageSignal) (shower : Shower) (g : G)
    (R : TTelescope.RayParts Pl TRay) (S : TTelescope.ShowerParts Pl TRay) (t : TTelescope Pl)
    (ray : TRay) (sampleNumber : ℤ) (fRandom : TRandom3) (T d : ℝ)
    (hT : 0 ≤ T) (hd : 0 < d) (hfit : ⌊T / d⌋ + 2 ≤ INT_MAX)
    (hrunT : run.TimeToPlane shower run.ground_plane = T) (hrund : run.time_delay = d)
    (hrayT : S.TimeToPlane ray t.fGroundPlane = T) :
    Simulator.n_steps T d = ⌊T / d⌋ + 2
      ∧ TTelescope.numberOfSteps T d = ⌊T / d⌋ + 2
      ∧ ((Simulator.n_steps T d : ℝ) - 2) * d ≤ T
      ∧ T < ((Simulator.n_steps T d : ℝ) - 1) * d
      ∧ Simulator.SimulateShower o E run shower g
          = (run.VoltageResponse
              (run.AddNoise
                ((List.range (⌊T / d⌋ + 2).toNat).foldl
                  (fun st i =>
                    Simulator.ViewCherenkovPhotons o E (Simulator.showerAt shower d i)
                      run.ground_plane
                      (Simulator.ViewFluorescencePhotons o E (Simulator.showerAt shower d i) st))
                  (run.emptyCount, g))).1,
             (run.AddNoise
                ((List.range (⌊T / d⌋ + 2).toNat).foldl
                  (fun st i =>
                    Simulator.ViewCherenkovPhotons o E (Simulator.showerAt shower d i)
                      run.ground_plane
                      (Simulator.ViewFluorescencePhotons o E (Simulator.showerAt shower d i) st))
                  (run.emptyCount, g))).2)
      ∧ TTelescope.ViewShower R S t ray d sampleNumber fRandom
          = (⟨wrapInt32 ((⌊T / d⌋ + 2) * sampleNumber),
              ((List.range (⌊T / d⌋ + 2).toNat).foldl
                (fun st i =>
                  TTelescope.sampleLoop R t (R.GetPosition (TTelescope.rayAt S ray d i))
                    sampleNumber.toNat st)
                (fRandom, [])).2⟩,
             ((List.range (⌊T / d⌋ + 2).toNat).foldl
                (fun st i =>
                  TTelescope.sampleLoop R t (R.GetPosition (TTelescope.rayAt S ray d i))
                    sampleNumber.toNat st)
                (fRandom, [])).1)
      ∧ (∀ i : ℕ, (Simulator.showerAt shower d i).GetTime = shower.GetTime + (i : ℝ) * d)
      ∧ ((⌊T / d⌋ + 2).toNat : ℤ) = ⌊T / d⌋ + 2
      ∧ (∀ i : ℕ, i + 1 < (⌊T / d⌋ + 2).toNat → (i : ℝ) * d ≤ T)
      ∧ (∀ i : ℕ, i + 1 = (⌊T / d⌋ + 2).toNat → T < (i : ℝ) * d) := by
  have hq : 0 ≤ T / d := div_nonneg hT hd.le
  have hfloor : 0 ≤ ⌊T / d⌋ := Int.floor_nonneg.mpr hq
  obtain ⟨hn, hn₂⟩ := Simulator.n_steps_of_fits T d hT hd hfit
  have hlow : (⌊T / d⌋ : ℝ) * d ≤ T := by
    have := mul_le_mul_of_nonneg_right (Int.floor_le (T / d)) hd.le
    rwa [div_mul_cancel₀ T hd.ne.symm] at this
  have hhigh : T < ((⌊T / d⌋ : ℝ) + 1) * d := by
    have := mul_lt_mul_of_pos_right (Int.lt_floor_add_one (T / d)) hd
    rwa [div_mul_cancel₀ T hd.ne.symm] at this
  have hnat : ((⌊T / d⌋ + 2).toNat : ℤ) = ⌊T / d⌋ + 2 := Int.toNat_of_nonneg (by omega)
  refine ⟨hn, hn₂, ?_, ?_, ?_, ?_, Simulator.showerAt_GetTime shower d, hnat, ?_, ?_⟩
  · rw [hn]
    push_cast
    linarith
  · rw [hn]
    push_cast
    linarith
  · simp only [Simulator.SimulateShower, hrunT, hrund, hn, Simulator.stepLoop_eq_foldl]
  · simp only [TTelescope.ViewShower, hrayT, hn₂, TTelescope.viewLoop_eq_foldl]
  · intro i hi
    have h1 : ((i : ℤ) + 1 : ℤ) < ⌊T / d⌋ + 2 := by
      rw [← hnat]
      exact_mod_cast hi
    have h2 : (i : ℤ) ≤ ⌊T / d⌋ := by omega
    have h3 : (i : ℝ) ≤ (⌊T / d⌋ : ℝ) := by exact_mod_cast h2
    exact le_trans (mul_le_mul_of_nonneg_right h3 hd.le) hlow
  · intro i hi
    have h1 : ((i : ℤ) + 1 : ℤ) = ⌊T / d⌋ + 2 := by
      rw [← hnat]
      exact_mod_cast hi
    have h2 : (i : ℤ) = ⌊T / d⌋ + 1 := by omega
    have h3 : (i : ℝ) = (⌊T / d⌋ : ℝ) + 1 := by exact_mod_cast h2
    rw [h3]
    exact hhigh

/-- The floor of 5/2 is 2. -/
theorem floor_five_halves : ⌊(5 : ℝ) / 2⌋ = 2 := by
  rw [Int.floor_eq_iff]
  norm_num

theorem Simulator.SimulateShower_steps_witness :
    Simulator.n_steps 5 2 = ⌊(5 : ℝ) / 2⌋ + 2
      ∧ TTelescope.numberOfSteps 5 2 = ⌊(5 : ℝ) / 2⌋ + 2
      ∧ ((Simulator.n_steps 5 2 : ℝ) - 2) * 2 ≤ 5
      ∧ (5 : ℝ) < ((Simulator.n_steps 5 2 : ℝ) - 1) * 2 :=
  have h := Simulator.SimulateShower_steps lensFailOptics sampleEmission sampleRun sampleShower 0
    sampleRayParts sampleShowerParts (TTelescope.new sampleRayParts.NewPlane 2 1 0 1 1 50)
    (⟨0, 0, 0⟩, ⟨0, 0, -1⟩) 1 ⟨fun _ => 1 / 2, 0⟩ 5 2 (by norm_num) (by norm_num)
    (by rw [floor_five_halves]; norm_num [INT_MAX]) rfl rfl rfl
  ⟨h.1, h.2.1, h.2.2.1, h.2.2.2.1⟩

/-- The step count for a time to the ground of 5 and a step of 2 is 4: the
views at the times 0, 2, 4 are before the ground is reached, the view at the
time 6 is after. -/
theorem Simulator.n_steps_example : Simulator.n_steps 5 2 = 4 := by
  have h := (Simulator.n_steps_of_fits 5 2 (by norm_num) (by norm_num)
    (by rw [floor_five_halves]; norm_num [INT_MAX])).1
  rw [h, floor_five_halves]
  rfl

/-- The floor of 3000000000 / 1 is 3000000000. -/
theorem floor_three_billion : ⌊(3000000000 : ℝ) / 1⌋ = 3000000000 := by
  rw [Int.floor_eq_iff]
  norm_num

/-- C15 fails as stated: for the time to the ground `T = 3000000000` and the
step `d = 1` the count of the claim, `floor(T/d) + 2`, is 3000000002, above
the greatest `int`, so that no value of the two `int` locals can be it. The
conversion of `T/d` to the 32-bit `int` is out of range: `n_steps` is
`-2147483646` and `numberOfSteps` is `-2147483648`, neither is the count of
the claim, and `SimulateShower` runs no round of its loop: on the sample
bench, where every photon of a viewed shower is deposited, the cube comes
back empty and the generator untouched. -/
theorem Simulator.n_steps_out_of_range :
    ((0 : ℝ) ≤ 3000000000 ∧ (0 : ℝ) < 1)
      ∧ ⌊(3000000000 : ℝ) / 1⌋ + 2 = 3000000002
      ∧ INT_MAX < ⌊(3000000000 : ℝ) / 1⌋ + 2
      ∧ Simulator.n_steps 3000000000 1 = -2147483646
      ∧ TTelescope.numberOfSteps 3000000000 1 = -2147483648
      ∧ ¬ (Simulator.n_steps 3000000000 1 = ⌊(3000000000 : ℝ) / 1⌋ + 2)
      ∧ ¬ (TTelescope.numberOfSteps 3000000000 1 = ⌊(3000000000 : ℝ) / 1⌋ + 2)
      ∧ farRun.TimeToPlane sampleShower farRun.ground_plane = 3000000000
      ∧ farRun.time_delay = 1
      ∧ Simulator.SimulateShower lensFailOptics sampleEmission farRun sampleShower 0
          = ([], 0) := by
  have hn : Simulator.n_steps 3000000000 1 = -2147483646 := by
    simp only [Simulator.n_steps]
    rw [castToInt32_of_large (by norm_num)]
    unfold wrapInt32 INT_MIN
    norm_num
  have hn₂ : TTelescope.numberOfSteps 3000000000 1 = -2147483648 := by
    simp only [TTelescope.numberOfSteps]
    rw [castToInt32_of_large (by norm_num)]
    rfl
  refine ⟨⟨by norm_num, by norm_num⟩, ?_, ?_, hn, hn₂, ?_, ?_, rfl, rfl, ?_⟩
  · rw [floor_three_billion]
    norm_num
  · rw [floor_three_billion]
    norm_num [INT_MAX]
  · rw [hn, floor_three_billion]
    norm_num
  · rw [hn₂, floor_three_billion]
    norm_num
  · have hT : farRun.TimeToPlane sampleShower farRun.ground_plane = 3000000000 := rfl
    have hd : farRun.time_delay = 1 := rfl
    simp only [Simulator.SimulateShower, hT, hd, hn]
    rfl

/-- On the sample bench one view of a shower deposits its 3 fluorescence and
its 2 Cherenkov photons. -/
theorem Simulator.sample_view_length (s : Shower) (gp : Plane)
    (st : List (TVector3 × ℝ) × ℕ) :
    (Simulator.ViewCherenkovPhotons lensFailOptics sampleEmission s gp
      (Simulator.ViewFluorescencePhotons lensFailOptics sampleEmission s st)).1.length
      = st.1.length + 5 := by
  have h3 : Simulator.number_detected sampleEmission s = 3 := by
    have hq : (0 : ℝ) ≤ ((3 : ℤ) : ℝ) * 1 := by norm_num
    simp only [Simulator.number_detected, sampleEmission, castToInt_of_nonneg hq]
    rw [Int.floor_eq_iff]
    norm_num
  simp only [Simulator.ViewFluorescencePhotons, Simulator.ViewCherenkovPhotons, h3]
  rfl

/-- On the sample run, with a time to the ground of 5 and a step of 2, the
shower is viewed 4 times and each view deposits its 3 fluorescence and its 2
Cherenkov photons: the cube comes back with 20 deposits. -/
theorem Simulator.SimulateShower_sample :
    (Simulator.SimulateShower lensFailOptics sampleEmission sampleRun sampleShower 0).1.length
      = 20 := by
  have hT : sampleRun.TimeToPlane sampleShower sampleRun.ground_plane = 5 := rfl
  have hd : sampleRun.time_delay = 2 := rfl
  have h4 : ((4 : ℤ)).toNat = 4 := rfl
  have hA : ∀ st : List (TVector3 × ℝ) × ℕ, sampleRun.AddNoise st = st := fun _ => rfl
  have hV : ∀ c : List (TVector3 × ℝ), sampleRun.VoltageResponse c = c := fun _ => rfl
  simp only [Simulator.SimulateShower, hT, hd, Simulator.n_steps_example, h4,
    Simulator.stepLoop, hA, hV, Simulator.sample_view_length]
  rfl

/-! ## Simulator::ViewFluorescencePhotons and Simulator::ViewCherenkovPhotons -/

/-- When one `AddPoint` raises the deposit count of a cube by at most one,
so does one call of `SimulateOptics`. -/
theorem Simulator.SimulateOptics_count_le {PhotonCount : Type} (o : Optics PhotonCount)
    (count : PhotonCount → ℕ)
    (hcount : ∀ photon_count direction time,
      count (o.AddPoint photon_count direction time) ≤ count photon_count + 1)
    (photon : Ray) (photon_count : PhotonCount) :
    count (Simulator.SimulateOptics o photon photon_count) ≤ count photon_count + 1 := by
  simp only [Simulator.SimulateOptics]
  split_ifs
  · exact Nat.le_succ _
  · exact Nat.le_succ _
  · exact Nat.le_succ _
  · exact hcount _ _ _

/-- One round of the loop of `ViewCherenkovPhotons` raises the deposit count
by at most one. -/
theorem Simulator.cherenkovStep_count_le {PhotonCount G : Type} (o : Optics PhotonCount)
    (E : Emission G) (count : PhotonCount → ℕ)
    (hcount : ∀ photon_count direction time,
      count (o.AddPoint photon_count direction time) ≤ count photon_count + 1)
    (shower : Shower) (ground_plane : Plane) (st : PhotonCount × G) :
    count (Simulator.cherenkovStep o.PropagateToPoint E (Simulator.SimulateOptics o) shower
      ground_plane st).1 ≤ count st.1 + 1 := by
  simp only [Simulator.cherenkovStep]
  split_ifs
  · exact Nat.le_succ _
  · exact Nat.le_succ _
  · exact Simulator.SimulateOptics_count_le o count hcount _ _

/-- The loop of `ViewCherenkovPhotons` raises the deposit count by at most
the number of its rounds. -/
theorem Simulator.cherenkovLoop_count_le {PhotonCount G : Type} (o : Optics PhotonCount)
    (E : Emission G) (count : PhotonCount → ℕ)
    (hcount : ∀ photon_count direction time,
      count (o.AddPoint photon_count direction time) ≤ count photon_count + 1)
    (shower : Shower) (ground_plane : Plane) (k : ℕ) :
    ∀ st : PhotonCount × G,
      count (Simulator.cherenkovLoop o.PropagateToPoint E (Simulator.SimulateOptics o)
        shower ground_plane k st).1 ≤ count st.1 + k := by
  induction k with
  | zero =>
    intro st
    simp [Simulator.cherenkovLoop]
  | succ k ih =>
    intro st
    simp only [Simulator.cherenkovLoop]
    have h1 := ih (Simulator.cherenkovStep o.PropagateToPoint E (Simulator.SimulateOptics o)
      shower ground_plane st)
    have h2 := Simulator.cherenkovStep_count_le o E count hcount shower ground_plane st
    omega

/-- C17: `ViewCherenkovPhotons` runs `NumberCherenkovPhotons` rounds. In a
round the generated photon is first propagated to the ground plane and
handed to `ReflectFromGround`; when `ReflectFromGround` fails, or when it
succeeds and `LensImpactPoint` fails, the round leaves the cube unchanged;
only when both succeed is a photon handed to `SimulateOptics`, and it is the
reflected photon propagated to the stop impact point. One call raises the
deposit count of the cube by at most `NumberCherenkovPhotons`. -/
theorem Simulator.ViewCherenkovPhotons_spec {PhotonCount G : Type} (o : Optics PhotonCount)
    (E : Emission G) (shower : Shower) (ground_plane : Plane) (st : PhotonCount × G)
    (count : PhotonCount → ℕ)
    (hcount : ∀ photon_count direction time,
      count (o.AddPoint photon_count direction time) ≤ count photon_count + 1) :
    Simulator.ViewCherenkovPhotons o E shower ground_plane st
        = Simulator.cherenkovLoop o.PropagateToPoint E (Simulator.SimulateOptics o) shower
            ground_plane (E.NumberCherenkovPhotons shower).toNat st
      ∧ (∀ g : G, Simulator.groundReflection E shower ground_plane g
          = E.ReflectFromGround
              (E.PropagateToPlane (E.GenerateCherenkovPhoton shower g).1 ground_plane)
              (E.GenerateCherenkovPhoton shower g).2)
      ∧ (∀ s : PhotonCount × G,
          (Simulator.groundReflection E shower ground_plane s.2).1.1 = false →
          (Simulator.cherenkovStep o.PropagateToPoint E (Simulator.SimulateOptics o) shower
            ground_plane s).1 = s.1)
      ∧ (∀ s : PhotonCount × G,
          (E.LensImpactPoint (Simulator.groundReflection E shower ground_plane s.2).1.2).1 = false →
          (Simulator.cherenkovStep o.PropagateToPoint E (Simulator.SimulateOptics o) shower
            ground_plane s).1 = s.1)
      ∧ (∀ s : PhotonCount × G,
          (Simulator.groundReflection E shower ground_plane s.2).1.1 = true →
          (E.LensImpactPoint (Simulator.groundReflection E shower ground_plane s.2).1.2).1 = true →
          (Simulator.cherenkovStep o.PropagateToPoint E (Simulator.SimulateOptics o) shower
            ground_plane s).1
            = Simulator.SimulateOptics o
                (o.PropagateToPoint (Simulator.groundReflection E shower ground_plane s.2).1.2
                  (E.LensImpactPoint
                    (Simulator.groundReflection E shower ground_plane s.2).1.2).2)
                s.1)
      ∧ count (Simulator.ViewCherenkovPhotons o E shower ground_plane st).1
          ≤ count st.1 + (E.NumberCherenkovPhotons shower).toNat := by
  refine ⟨rfl, fun _ => rfl, fun s h => ?_, fun s h => ?_, fun s h1 h2 => ?_, ?_⟩
  · simp [Simulator.cherenkovStep, h]
  · by_cases hr : (Simulator.groundReflection E shower ground_plane s.2).1.1 = true <;>
      simp [Simulator.cherenkovStep, h, hr]
  · simp [Simulator.cherenkovStep, h1, h2]
  · exact Simulator.cherenkovLoop_count_le o E count hcount shower ground_plane _ st

theorem Simulator.ViewCherenkovPhotons_spec_witness :
    Simulator.ViewCherenkovPhotons lensFailOptics sampleEmission sampleShower
          ⟨⟨0, 0, 1⟩, 0⟩ ([], 0)
        = Simulator.cherenkovLoop lensFailOptics.PropagateToPoint sampleEmission
            (Simulator.SimulateOptics lensFailOptics) sampleShower ⟨⟨0, 0, 1⟩, 0⟩
            (sampleEmission.NumberCherenkovPhotons sampleShower).toNat ([], 0)
      ∧ List.length
          (Simulator.ViewCherenkovPhotons lensFailOptics sampleEmission sampleShower
            ⟨⟨0, 0, 1⟩, 0⟩ ([], 0)).1
          ≤ List.length ([] : List (TVector3 × ℝ))
            + (sampleEmission.NumberCherenkovPhotons sampleShower).toNat :=
  have h := Simulator.ViewCherenkovPhotons_spec lensFailOptics sampleEmission sampleShower
    ⟨⟨0, 0, 1⟩, 0⟩ ([], 0) List.length (fun _ _ _ => by simp [lensFailOptics])
  ⟨h.1, h.2.2.2.2.2⟩

/-- On the sample bench every photon passes all stages: the three
fluorescence photons and the two Cherenkov photons of the sample shower are
all deposited. -/
theorem Simulator.sample_deposits :
    (Simulator.ViewFluorescencePhotons lensFailOptics sampleEmission sampleShower
        ([], 0)).1.length = 3
      ∧ (Simulator.ViewCherenkovPhotons lensFailOptics sampleEmission sampleShower
        ⟨⟨0, 0, 1⟩, 0⟩ ([], 0)).1.length = 2 := by
  have h3 : Simulator.number_detected sampleEmission sampleShower = 3 := by
    have hq : (0 : ℝ) ≤ ((3 : ℤ) : ℝ) * 1 := by norm_num
    simp only [Simulator.number_detected, sampleEmission, castToInt_of_nonneg hq]
    rw [Int.floor_eq_iff]
    norm_num
  constructor
  · simp only [Simulator.ViewFluorescencePhotons, h3]
    simp [Simulator.fluorescenceLoop, Simulator.fluorescenceStep, Simulator.SimulateOptics,
      lensFailOptics]
  · simp [Simulator.ViewCherenkovPhotons, sampleEmission, Simulator.cherenkovLoop,
      Simulator.cherenkovStep, Simulator.groundReflection, Simulator.SimulateOptics,
      lensFailOptics]

/-! ## TTelescope::RayDetection -/

/-- The mirror axis that the constructor sets, `(1,0,0)` turned about the y
axis, has length one, so `Unit()` returns it unchanged. -/
theorem TTelescope.mirrorAxis_unit (a : ℝ) :
    ((⟨1, 0, 0⟩ : TVector3).RotateY a).Unit = ⟨Real.cos a, 0, -Real.sin a⟩ := by
  have hm : ((⟨1, 0, 0⟩ : TVector3).RotateY a).Mag2 = 1 := by
    simp only [TVector3.RotateY, TVector3.Mag2]
    nlinarith [Real.sin_sq_add_cos_sq a]
  unfold TVector3.Unit
  rw [hm]
  ext <;> simp [TVector3.RotateY]

/-- C18: for every telescope built by the constructor (radius `R`, any
inclination) and every pair of offsets `(y, z)` with `y^2 + z^2 <= R^2`, the
mirror impact point of `RayDetection` lies on the sphere of radius `R` about
the origin: its squared length is `R^2` and its length is `|R|`, which is `R`
for a radius `R >= 0`. The normal handed to the reflection, `-mirrorImpact`,
is `-1` times the vector from the centre of the sphere to the impact point,
so the two are parallel (their cross product vanishes). -/
theorem TTelescope.mirrorImpact_on_sphere {Pl TRay : Type} (R : TTelescope.RayParts Pl TRay)
    (radius focalLength inclinationAngle height width groudHeight : ℝ)
    (objectPosition : TVector3) (fRandom : TRandom3) (yRandom zRandom : ℝ)
    (h : yRandom * yRandom + zRandom * zRandom ≤ radius * radius) :
    ((TTelescope.new R.NewPlane radius focalLength inclinationAngle height width
        groudHeight).mirrorImpact yRandom zRandom).Mag2 = radius * radius
      ∧ ((TTelescope.new R.NewPlane radius focalLength inclinationAngle height width
        groudHeight).mirrorImpact yRandom zRandom).Mag = |radius|
      ∧ (0 ≤ radius →
          ((TTelescope.new R.NewPlane radius focalLength inclinationAngle height width
            groudHeight).mirrorImpact yRandom zRandom).Mag = radius)
      ∧ ((TTelescope.new R.NewPlane radius focalLength inclinationAngle height width
          groudHeight).mirrorImpact yRandom zRandom).neg
          = ((TTelescope.new R.NewPlane radius focalLength inclinationAngle height width
              groudHeight).mirrorImpact yRandom zRandom).smul (-1)
      ∧ (((TTelescope.new R.NewPlane radius focalLength inclinationAngle height width
          groudHeight).mirrorImpact yRandom zRandom).neg).Cross
            ((TTelescope.new R.NewPlane radius focalLength inclinationAngle height width
              groudHeight).mirrorImpact yRandom zRandom) = ⟨0, 0, 0⟩
      ∧ (TTelescope.RayDetection R
            (TTelescope.new R.NewPlane radius focalLength inclinationAngle height width groudHeight)
            objectPosition fRandom).1
          = R.GetPosition
              (R.PropagateToPlane
                (R.ReflectFromPlane
                  (R.NewRay
                    ((TTelescope.new R.NewPlane radius focalLength inclinationAngle height width
                      groudHeight).mirrorImpact
                      ((TTelescope.new R.NewPlane radius focalLength inclinationAngle height
                        width groudHeight).randomOffsets fRandom).1.1
                      ((TTelescope.new R.NewPlane radius focalLength inclinationAngle height
                        width groudHeight).randomOffsets fRandom).1.2)
                    (((TTelescope.new R.NewPlane radius focalLength inclinationAngle height width
                      groudHeight).mirrorImpact
                      ((TTelescope.new R.NewPlane radius focalLength inclinationAngle height
                        width groudHeight).randomOffsets fRandom).1.1
                      ((TTelescope.new R.NewPlane radius focalLength inclinationAngle height
                        width groudHeight).randomOffsets fRandom).1.2).sub objectPosition))
                  (R.NewPlane
                    ((TTelescope.new R.NewPlane radius focalLength inclinationAngle height width
                      groudHeight).mirrorImpact
                      ((TTelescope.new R.NewPlane radius focalLength inclinationAngle height
                        width groudHeight).randomOffsets fRandom).1.1
                      ((TTelescope.new R.NewPlane radius focalLength inclinationAngle height
                        width groudHeight).randomOffsets fRandom).1.2).neg
                    ((TTelescope.new R.NewPlane radius focalLength inclinationAngle height width
                      groudHeight).mirrorImpact
                      ((TTelescope.new R.NewPlane radius focalLength inclinationAngle height
                        width groudHeight).randomOffsets fRandom).1.1
                      ((TTelescope.new R.NewPlane radius focalLength inclinationAngle height
                        width groudHeight).randomOffsets fRandom).1.2)))
                (TTelescope.new R.NewPlane radius focalLength inclinationAngle height width
                  groudHeight).fFocalPlane) := by
  have hrad : 0 ≤ radius * radius - yRandom * yRandom - zRandom * zRandom := by linarith
  have hq := Real.mul_self_sqrt hrad
  have hS := Real.sin_sq_add_cos_sq inclinationAngle
  have hm2 : ((TTelescope.new R.NewPlane radius focalLength inclinationAngle height width
      groudHeight).mirrorImpact yRandom zRandom).Mag2 = radius * radius := by
    simp only [TTelescope.mirrorImpact, TTelescope.backPlanePoisition, TTelescope.new,
      TTelescope.mirrorAxis_unit, TVector3.smul, TVector3.add, TVector3.Mag2]
    simp only [TVector3.RotateY]
    generalize Real.sqrt (radius * radius - yRandom * yRandom - zRandom * zRandom) = q at hq
    generalize Real.sin inclinationAngle = s at hS
    generalize Real.cos inclinationAngle = c at hS
    linear_combination (zRandom * zRandom + q * q) * hS + hq
  have hmag : ((TTelescope.new R.NewPlane radius focalLength inclinationAngle height width
      groudHeight).mirrorImpact yRandom zRandom).Mag = |radius| := by
    rw [TVector3.Mag, hm2]
    exact Real.sqrt_mul_self_eq_abs radius
  refine ⟨hm2, hmag, fun h0 => ?_, ?_, ?_, rfl⟩
  · rw [hmag, abs_of_nonneg h0]
  · ext <;> simp [TVector3.neg, TVector3.smul]
  · ext <;> simp [TVector3.neg, TVector3.Cross]

theorem TTelescope.mirrorImpact_on_sphere_witness :
    ((TTelescope.new sampleRayParts.NewPlane 2 1 0 1 1 50).mirrorImpact 1 1).Mag2 = 2 * 2
      ∧ ((TTelescope.new sampleRayParts.NewPlane 2 1 0 1 1 50).mirrorImpact 1 1).Mag = |2| :=
  have h := TTelescope.mirrorImpact_on_sphere sampleRayParts 2 1 0 1 1 50 ⟨0, 0, 0⟩
    ⟨fun _ => 0, 0⟩ 1 1 (by norm_num)
  ⟨h.1, h.2.1⟩

/-- The quotient of `FindRMSVsAngle` for the sample collaborators, the
bounds 0 and pi/4, the step 1 and the distance `zDistance` is `zDistance`. -/
theorem TAnalysis.sample_quotient (zDistance : ℝ) :
    zDistance * (Real.tan (Real.pi / 4) - Real.tan 0) / (1 * sampleAnalysis.fLightSpeed)
      = zDistance := by
  simp [sampleAnalysis, Real.tan_pi_div_four, Real.tan_zero]

theorem TAnalysis.FindRMSVsAngle_symmetric_witness :
    1 ≤ TAnalysis.nSteps sampleAnalysis.fLightSpeed 1 0 (Real.pi / 4) 1
      ∧ TAnalysis.FindRMSVsAngle sampleAnalysis [7] [8, 9] () 1 1 (Real.pi / 4) 0 1
          = TAnalysis.FindRMSVsAngle sampleAnalysis [] [] () 1 1 0 (Real.pi / 4) 1
      ∧ (TAnalysis.FindRMSVsAngle sampleAnalysis [7] [8, 9] () 1 1 0 (Real.pi / 4) 1).result
          = .ok ()
      ∧ ((TAnalysis.FindRMSVsAngle sampleAnalysis [7] [8, 9] () 1 1 0
            (Real.pi / 4) 1).RMS.length : ℤ)
          = ⌊(1 : ℝ) * (Real.tan (Real.pi / 4) - Real.tan 0)
              / (1 * sampleAnalysis.fLightSpeed)⌋ + 1 :=
  have h := TAnalysis.FindRMSVsAngle_symmetric sampleAnalysis [7] [8, 9] [] [] () 1 1 0
    (Real.pi / 4) 1 (by linarith [Real.pi_pos]) (by linarith [Real.pi_pos])
    (by linarith [Real.pi_pos]) (by norm_num) (by norm_num) (by norm_num [sampleAnalysis])
    (by rw [TAnalysis.sample_quotient]; norm_num [INT_MAX])
  ⟨h.2.2.2.2.1, h.2.2.2.2.2.1, h.2.2.2.2.2.2.1, h.2.2.2.2.2.2.2.1⟩

/-- The step count of `FindRMSVsAngle` between the angles 0 and pi/4 at
distance 1, for a step of 1 at light speed 1, is 2. -/
theorem TAnalysis.nSteps_example : TAnalysis.nSteps 1 1 0 (Real.pi / 4) 1 = 2 := by
  have e : (TAnalysis.endingHeight (Real.pi / 4) 1 - TAnalysis.startingHeight 0 1) / (1 * 1)
      = 1 := by
    simp [TAnalysis.endingHeight, TAnalysis.startingHeight, Real.tan_pi_div_four, Real.tan_zero]
  have hfloor : ⌊(1 : ℝ)⌋ = 1 := Int.floor_one
  simp only [TAnalysis.nSteps, e]
  rw [castToInt32_of_fits (by norm_num) (by rw [hfloor]; norm_num [INT_MAX]), hfloor]
  exact wrapInt32_of_fits (by norm_num [INT_MIN]) (by norm_num [INT_MAX])

/-- C19 fails as stated: the bounds 0 and pi/4, the distance 3000000000 and
the step 1 (at light speed 1) satisfy its conditions, and the step count of
the claim, the floor of the quotient plus 1, is 3000000001, above the
greatest `Int_t`, so that no value of the local `nSteps` and no length that
an `Int_t` counts can be it. The conversion of the quotient to the 32-bit
`Int_t` is out of range: `nSteps` is
`-2147483647`, which is neither that count nor at least 1, the loop runs no
round, and both output vectors come back empty. -/
theorem TAnalysis.FindRMSVsAngle_steps_out_of_range :
    (-(Real.pi / 2) < 0 ∧ (0 : ℝ) < Real.pi / 4 ∧ Real.pi / 4 < Real.pi / 2)
      ∧ ⌊(3000000000 : ℝ) * (Real.tan (Real.pi / 4) - Real.tan 0)
            / (1 * sampleAnalysis.fLightSpeed)⌋ + 1 = 3000000001
      ∧ INT_MAX < ⌊(3000000000 : ℝ) * (Real.tan (Real.pi / 4) - Real.tan 0)
            / (1 * sampleAnalysis.fLightSpeed)⌋ + 1
      ∧ TAnalysis.nSteps sampleAnalysis.fLightSpeed 1 0 (Real.pi / 4) 3000000000 = -2147483647
      ∧ ¬ (TAnalysis.nSteps sampleAnalysis.fLightSpeed 1 0 (Real.pi / 4) 3000000000
            = ⌊(3000000000 : ℝ) * (Real.tan (Real.pi / 4) - Real.tan 0)
                / (1 * sampleAnalysis.fLightSpeed)⌋ + 1)
      ∧ ¬ (1 ≤ TAnalysis.nSteps sampleAnalysis.fLightSpeed 1 0 (Real.pi / 4) 3000000000)
      ∧ (TAnalysis.FindRMSVsAngle sampleAnalysis [] [] () 1 1 0 (Real.pi / 4) 3000000000).RMS = []
      ∧ (TAnalysis.FindRMSVsAngle sampleAnalysis [] [] () 1 1 0 (Real.pi / 4) 3000000000).angle
          = [] := by
  have hpi := Real.pi_pos
  have hfloor : ⌊(3000000000 : ℝ) * (Real.tan (Real.pi / 4) - Real.tan 0)
      / (1 * sampleAnalysis.fLightSpeed)⌋ + 1 = 3000000001 := by
    rw [TAnalysis.sample_quotient]
    have : ⌊(3000000000 : ℝ)⌋ = 3000000000 := by
      rw [Int.floor_eq_iff]
      norm_num
    rw [this]
    norm_num
  have hn : TAnalysis.nSteps sampleAnalysis.fLightSpeed 1 0 (Real.pi / 4) 3000000000
      = -2147483647 := by
    have h := TAnalysis.nSteps_out_of_range 1 one_pos
    rw [div_one] at h
    exact h
  have hlt : (0 : ℝ) < Real.pi / 4 := by linarith
  refine ⟨⟨by linarith, hlt, by linarith⟩, hfloor, ?_, hn, ?_, ?_, ?_, ?_⟩
  · rw [hfloor]
    norm_num [INT_MAX]
  · rw [hn, hfloor]
    norm_num
  · rw [hn]
    norm_num
  · simp only [TAnalysis.FindRMSVsAngle, TAnalysis.checkAngles_of_lt hlt, hn]
    rfl
  · simp only [TAnalysis.FindRMSVsAngle, TAnalysis.checkAngles_of_lt hlt, hn]
    rfl

/-! ## Utility::ToVector -/

/-- The first occurrence of a character that does not occur in the front
part `f` of `f ++ c :: rest` is at the index `length f`. -/
theorem Utility.find_append (f rest : List Char) (c : Char) (h : c ∉ f) :
    Utility.find (f ++ c :: rest) c = some f.length := by
  induction f with
  | nil => simp [Utility.find]
  | cons x f ih =>
    have hx : x ≠ c := fun e => h (e ▸ List.mem_cons_self x f)
    have hf : c ∉ f := fun e => h (List.mem_cons_of_mem x e)
    simp [Utility.find, hx, ih hf]

/-- The call `ParseTo(s, c)` on a string that starts with a field free of `c`
followed by `c`: the field is parsed, and the field and the delimiter are
removed from the front of the string. -/
theorem Utility.ParseTo_field (stod : List Char → Except String ℝ) (f rest : List Char)
    (c : Char) (h : c ∉ f) :
    Utility.ParseTo stod (f ++ c :: rest) c = (stod f).map (fun out => (out, rest)) := by
  simp only [Utility.ParseTo, Utility.find_append f rest c h]
  have h1 : (f ++ c :: rest).take f.length = f := by simp
  have h2 : (f ++ c :: rest).drop (f.length + 1) = rest := by
    rw [← List.drop_drop]
    simp
  rw [h1, h2]

/-- C20: for every string `pre ( a , b , c ) post` in which `pre` contains no
opening parenthesis, `a` and `b` contain no comma and `c` contains no closing
parenthesis, `ToVector` returns the vector of the three fields as the number
parser reads them (and throws what the parser throws, on the first field it
rejects); the result is the same for every other `pre` and `post`; and each
`ParseTo` returns the number of the field in front and leaves the string
without that field and its delimiter. -/
theorem Utility.ToVector_spec (stod : List Char → Except String ℝ)
    (pre a b c post pre₂ post₂ : List Char)
    (hpre : '(' ∉ pre) (ha : ',' ∉ a) (hb : ',' ∉ b) (hc : ')' ∉ c) (hpre₂ : '(' ∉ pre₂) :
    Utility.ToVector stod (pre ++ '(' :: (a ++ ',' :: (b ++ ',' :: (c ++ ')' :: post))))
        = ((stod a).bind fun x => (stod b).bind fun y => (stod c).bind fun z => .ok ⟨x, y, z⟩)
      ∧ Utility.ToVector stod (pre₂ ++ '(' :: (a ++ ',' :: (b ++ ',' :: (c ++ ')' :: post₂))))
        = Utility.ToVector stod (pre ++ '(' :: (a ++ ',' :: (b ++ ',' :: (c ++ ')' :: post))))
      ∧ Utility.ParseTo stod (a ++ ',' :: (b ++ ',' :: (c ++ ')' :: post))) ','
        = (stod a).map (fun out => (out, b ++ ',' :: (c ++ ')' :: post)))
      ∧ Utility.ParseTo stod (b ++ ',' :: (c ++ ')' :: post)) ','
        = (stod b).map (fun out => (out, c ++ ')' :: post))
      ∧ Utility.ParseTo stod (c ++ ')' :: post) ')'
        = (stod c).map (fun out => (out, post)) := by
  have key : ∀ (p q : List Char), '(' ∉ p →
      Utility.ToVector stod (p ++ '(' :: (a ++ ',' :: (b ++ ',' :: (c ++ ')' :: q))))
        = (stod a).bind fun x => (stod b).bind fun y => (stod c).bind fun z =>
            .ok ⟨x, y, z⟩ := by
    intro p q hp
    have hdrop : (p ++ '(' :: (a ++ ',' :: (b ++ ',' :: (c ++ ')' :: q)))).drop
        ((p.length : ℤ) + 1).toNat = a ++ ',' :: (b ++ ',' :: (c ++ ')' :: q)) := by
      have e : ((p.length : ℤ) + 1).toNat = p.length + 1 := by omega
      rw [e, ← List.drop_drop]
      simp
    simp only [Utility.ToVector, Utility.find_append p _ '(' hp, hdrop,
      Utility.ParseTo_field stod a _ ',' ha]
    cases hx : stod a with
    | error e => rfl
    | ok x =>
      simp only [Except.map, Except.bind, Utility.ParseTo_field stod b _ ',' hb]
      cases hy : stod b with
      | error e => rfl
      | ok y =>
        simp only [Except.map, Except.bind, Utility.ParseTo_field stod c _ ')' hc]
        cases hz : stod c with
        | error e => rfl
        | ok z => rfl
  refine ⟨key pre post hpre, ?_, Utility.ParseTo_field stod a _ ',' ha,
    Utility.ParseTo_field stod b _ ',' hb, Utility.ParseTo_field stod c _ ')' hc⟩
  rw [key pre post hpre, key pre₂ post₂ hpre₂]

theorem Utility.ToVector_spec_witness :
    Utility.ToVector sampleStod
        (['v', '='] ++ '(' :: (['1'] ++ ',' :: (['2', '2'] ++ ',' :: (['3'] ++ ')' :: [';']))))
      = (sampleStod ['1']).bind fun x =>
          (sampleStod ['2', '2']).bind fun y => (sampleStod ['3']).bind fun z => .ok ⟨x, y, z⟩ :=
  (Utility.ToVector_spec sampleStod ['v', '='] ['1'] ['2', '2'] ['3'] [';'] [] []
    (by decide) (by decide) (by decide) (by decide) (by decide)).1

/-- The sample string `v=(1,22,3);` under the stand-in parser, which counts
the characters of a field, gives the vector (1, 2, 1). -/
theorem Utility.ToVector_example :
    Utility.ToVector sampleStod ['v', '=', '(', '1', ',', '2', '2', ',', '3', ')', ';']
      = .ok ⟨1, 2, 1⟩ := by
  simp [Utility.ToVector, Utility.find, Utility.ParseTo, sampleStod, Except.map, Except.bind]

/-- Without a closing parenthesis the last `ParseTo` reads the whole rest of
the string as the third field and removes nothing. -/
theorem Utility.ParseTo_no_delimiter :
    Utility.ParseTo sampleStod ['3', ';'] ')' = .ok (2, ['3', ';']) := by
  simp [Utility.find, Utility.ParseTo, sampleStod, Except.map]

/-! ## TCoordinates: the two frame changes -/

/-- A rotation about the x axis is undone by the rotation by the opposite
angle. -/
theorem TVector3.RotateX_neg_cancel (v : TVector3) (e : ℝ) :
    (v.RotateX (-e)).RotateX e = v := by
  have hS := Real.sin_sq_add_cos_sq e
  ext <;> simp only [TVector3.RotateX, Real.sin_neg, Real.cos_neg]
  · linear_combination v.y * hS
  · linear_combination v.z * hS

/-- A rotation about the y axis is undone by the rotation by the opposite
angle. -/
theorem TVector3.RotateY_neg_cancel (v : TVector3) (a : ℝ) :
    (v.RotateY (-a)).RotateY a = v := by
  have hS := Real.sin_sq_add_cos_sq a
  ext <;> simp only [TVector3.RotateY, Real.sin_neg, Real.cos_neg]
  · linear_combination v.x * hS
  · linear_combination v.z * hS

/-- The rotation about the y axis by the angle 0 changes nothing. -/
theorem TVector3.RotateY_zero (v : TVector3) : v.RotateY 0 = v := by
  ext <;> simp [TVector3.RotateY]

/-- The change to the observatory frame is undone by the two opposite
rotations in the opposite order: first about y by the azimuth, then about x
by the elevation. -/
theorem TCoordinates.DirectionToObservatoryFrame_undone (c : TCoordinates)
    (direction : TVector3) :
    ((c.DirectionToObservatoryFrame direction).RotateY c.fAzimuth).RotateX c.fElevation
      = direction := by
  simp only [TCoordinates.DirectionToObservatoryFrame, TVector3.RotateY_neg_cancel,
    TVector3.RotateX_neg_cancel]

/-- For an azimuth of 0 the two frame changes of a direction are inverse to
each other. -/
theorem TCoordinates.direction_roundTrip_of_azimuth_zero (c : TCoordinates)
    (h : c.fAzimuth = 0) (direction : TVector3) :
    c.DirectionToExternalFrame (c.DirectionToObservatoryFrame direction) = direction := by
  simp only [TCoordinates.DirectionToExternalFrame, TCoordinates.DirectionToObservatoryFrame, h,
    neg_zero, TVector3.RotateY_zero, TVector3.RotateX_neg_cancel]

/-- The round trip of a position is the round trip of its offset from the
centre of curvature as a direction, moved back by the centre. -/
theorem TCoordinates.position_roundTrip (c : TCoordinates) (position : TVector3) :
    c.PositionToExternalFrame (c.PositionToObservatoryFrame position)
      = (c.DirectionToExternalFrame
          (c.DirectionToObservatoryFrame (position.sub c.fCenterOfCurvature))).add
          c.fCenterOfCurvature := rfl

/-- C21, at an input the code mishandles: for azimuth and elevation both a
quarter turn, the direction (1, 0, 0) goes to (0, 0, 1) in the observatory
frame and comes back as (0, -1, 0); the position (2, 2, 3), with the centre
of curvature at (1, 2, 3), comes back as (1, 1, 3); and the round trip in
the other order takes (1, 0, 0) to (0, -1, 0) as well. The change to the
external frame applies its two rotations in the same order as the change to
the observatory frame, not in the opposite order. -/
theorem TCoordinates.roundTrip_quarterTurns :
    quarterTurns.DirectionToObservatoryFrame ⟨1, 0, 0⟩ = ⟨0, 0, 1⟩
      ∧ quarterTurns.DirectionToExternalFrame (quarterTurns.DirectionToObservatoryFrame ⟨1, 0, 0⟩)
          = ⟨0, -1, 0⟩
      ∧ quarterTurns.DirectionToExternalFrame (quarterTurns.DirectionToObservatoryFrame ⟨1, 0, 0⟩)
          ≠ ⟨1, 0, 0⟩
      ∧ quarterTurns.PositionToExternalFrame (quarterTurns.PositionToObservatoryFrame ⟨2, 2, 3⟩)
          = ⟨1, 1, 3⟩
      ∧ quarterTurns.PositionToExternalFrame (quarterTurns.PositionToObservatoryFrame ⟨2, 2, 3⟩)
          ≠ ⟨2, 2, 3⟩
      ∧ quarterTurns.DirectionToObservatoryFrame (quarterTurns.DirectionToExternalFrame ⟨1, 0, 0⟩)
          = ⟨0, -1, 0⟩ := by
  have h1 : quarterTurns.DirectionToObservatoryFrame ⟨1, 0, 0⟩ = ⟨0, 0, 1⟩ := by
    ext <;> simp [TCoordinates.DirectionToObservatoryFrame, quarterTurns, TVector3.RotateX,
      TVector3.RotateY]
  have h2 : quarterTurns.DirectionToExternalFrame ⟨0, 0, 1⟩ = ⟨0, -1, 0⟩ := by
    ext <;> simp [TCoordinates.DirectionToExternalFrame, quarterTurns, TVector3.RotateX,
      TVector3.RotateY]
  have h3 : quarterTurns.PositionToExternalFrame (quarterTurns.PositionToObservatoryFrame ⟨2, 2, 3⟩)
      = ⟨1, 1, 3⟩ := by
    have e : (⟨2, 2, 3⟩ : TVector3).sub quarterTurns.fCenterOfCurvature = ⟨1, 0, 0⟩ := by
      ext <;> norm_num [TVector3.sub, quarterTurns]
    rw [TCoordinates.position_roundTrip, e, h1, h2]
    ext <;> norm_num [TVector3.add, quarterTurns]
  have h4 : quarterTurns.DirectionToObservatoryFrame
      (quarterTurns.DirectionToExternalFrame ⟨1, 0, 0⟩) = ⟨0, -1, 0⟩ := by
    ext <;> simp [TCoordinates.DirectionToObservatoryFrame, TCoordinates.DirectionToExternalFrame,
      quarterTurns, TVector3.RotateX, TVector3.RotateY]
  refine ⟨h1, ?_, ?_, h3, ?_, h4⟩
  · rw [h1, h2]
  · rw [h1, h2]
    intro h
    have := congrArg TVector3.x h
    norm_num at this
  · rw [h3]
    intro h
    have := congrArg TVector3.x h
    norm_num at this

/-! ## The telescope of Main.cpp -/

/-- The mirror impact point of `RayDetection` in terms of the radicand. -/
theorem TTelescope.mirrorImpact_radicand {Pl : Type} (t : TTelescope Pl) (yRandom zRandom : ℝ) :
    t.mirrorImpact yRandom zRandom
      = (t.backPlanePoisition yRandom zRandom).add
          (t.fMirrorAxis.Unit.smul (t.fRadius - Real.sqrt (t.radicand yRandom zRandom))) := rfl

/-- When the rectangle of half-width `fWidth / 2` and half-height
`fHeight / 2` fits into the disk of radius `fRadius`, the radicand is
non-negative for every pair of draws between 0 and 1. -/
theorem TTelescope.radicand_nonneg_of_fits {Pl : Type} (t : TTelescope Pl) (fRandom : TRandom3)
    (hfit : (t.fWidth / 2) ^ 2 + (t.fHeight / 2) ^ 2 ≤ t.fRadius ^ 2)
    (h1 : 0 ≤ fRandom.Rndm.1) (h1' : fRandom.Rndm.1 ≤ 1)
    (h2 : 0 ≤ fRandom.Rndm.2.Rndm.1) (h2' : fRandom.Rndm.2.Rndm.1 ≤ 1) :
    0 ≤ t.radicand (t.randomOffsets fRandom).1.1 (t.randomOffsets fRandom).1.2 := by
  simp only [TTelescope.radicand, TTelescope.randomOffsets]
  generalize fRandom.Rndm.2.Rndm.1 = u₂ at h2 h2'
  generalize fRandom.Rndm.1 = u₁ at h1 h1'
  have hy : (u₁ - 0.5) ^ 2 ≤ (1 / 2) ^ 2 := by
    apply sq_le_sq'
    · norm_num
      linarith
    · norm_num
      linarith
  have hz : (u₂ - 0.5) ^ 2 ≤ (1 / 2) ^ 2 := by
    apply sq_le_sq'
    · norm_num
      linarith
    · norm_num
      linarith
  have hy' := mul_le_mul_of_nonneg_right hy (sq_nonneg t.fWidth)
  have hz' := mul_le_mul_of_nonneg_right hz (sq_nonneg t.fHeight)
  nlinarith

/-- C22, at an input the code mishandles: for the telescope that `main`
constructs (radius 1, height 2, width 1) and the draws 1/8 and 1/32, both in
[0, 1), the offsets are `yRandom = -3/8` and `zRandom = -15/16`, and the
radicand `fRadius^2 - yRandom^2 - zRandom^2` is `-5/256`, which is negative:
the square root in `RayDetection` is taken of a negative number. The
rectangle of the offsets, of half-width 1/2 and half-height 1, does not fit
into the disk of radius 1. -/
theorem Main.telescope_radicand_negative :
    (0 ≤ cornerDraws.Rndm.1 ∧ cornerDraws.Rndm.1 < 1)
      ∧ (0 ≤ cornerDraws.Rndm.2.Rndm.1 ∧ cornerDraws.Rndm.2.Rndm.1 < 1)
      ∧ ((Main.telescope sampleRayParts.NewPlane).fRadius = 1
          ∧ (Main.telescope sampleRayParts.NewPlane).fHeight = 2
          ∧ (Main.telescope sampleRayParts.NewPlane).fWidth = 1)
      ∧ ((Main.telescope sampleRayParts.NewPlane).randomOffsets cornerDraws).1
          = (-3 / 8, -15 / 16)
      ∧ (Main.telescope sampleRayParts.NewPlane).radicand
            ((Main.telescope sampleRayParts.NewPlane).randomOffsets cornerDraws).1.1
            ((Main.telescope sampleRayParts.NewPlane).randomOffsets cornerDraws).1.2
          = -5 / 256
      ∧ (Main.telescope sampleRayParts.NewPlane).radicand
            ((Main.telescope sampleRayParts.NewPlane).randomOffsets cornerDraws).1.1
            ((Main.telescope sampleRayParts.NewPlane).randomOffsets cornerDraws).1.2
          < 0 := by
  have hoff : ((Main.telescope sampleRayParts.NewPlane).randomOffsets cornerDraws).1
      = (-3 / 8, -15 / 16) := by
    simp only [TTelescope.randomOffsets, Main.telescope, TTelescope.new, cornerDraws,
      TRandom3.Rndm]
    norm_num
  have hrad : (Main.telescope sampleRayParts.NewPlane).radicand
      ((Main.telescope sampleRayParts.NewPlane).randomOffsets cornerDraws).1.1
      ((Main.telescope sampleRayParts.NewPlane).randomOffsets cornerDraws).1.2 = -5 / 256 := by
    rw [hoff]
    simp only [TTelescope.radicand, Main.telescope, TTelescope.new]
    norm_num
  refine ⟨?_, ?_, ⟨rfl, rfl, rfl⟩, hoff, hrad, ?_⟩
  · simp only [cornerDraws, TRandom3.Rndm]
    norm_num
  · simp only [cornerDraws, TRandom3.Rndm]
    norm_num
  · rw [hrad]
    norm_num

/-- For the draws 1/2 and 1/2 the offsets of the telescope of `main` are
both 0 and the radicand is 1. -/
theorem Main.telescope_radicand_centre :
    (Main.telescope sampleRayParts.NewPlane).radicand
        ((Main.telescope sampleRayParts.NewPlane).randomOffsets ⟨fun _ => 1 / 2, 0⟩).1.1
        ((Main.telescope sampleRayParts.NewPlane).randomOffsets ⟨fun _ => 1 / 2, 0⟩).1.2
      = 1 := by
  simp only [TTelescope.radicand, TTelescope.randomOffsets, Main.telescope, TTelescope.new,
    TRandom3.Rndm]
  norm_num

end cherenkov_simulator

end
